import Mathlib

/-!
# sequential-utils: error normalisation and timestamp helpers

A shallow embedding of `src/errors.js` and `src/timestamps.js`.

JavaScript values with data properties are an inductive type `JSVal`; `JSAny` adds the
inputs that behave differently under the code: functions, and objects with accessor
properties, whose reads can raise.  Every operation that can raise in JavaScript returns
in `Except JSErr`, so that "does not raise" is a statement about the result being `.ok`.
What the language leaves to the engine (the `stack` text attached to a fresh `Error`, the
treatment of date strings outside the ISO format) is a parameter, `Engine`.
-/

namespace SequentialUtils

/-! ## JavaScript values -/

/-- Exceptions the modelled operations can raise. -/
inductive JSErr where
  | typeError
  | rangeError
  deriving DecidableEq, Repr

/-- Numbers.  `int i` and `real q` are the Number values for the integer `i` and for the
rational `q`: the binary64 values nearest to them, ties to even (so `int 0` is `+0`, and
every finite binary64 value is `real q` for the rational `q` it equals). -/
inductive JSNum where
  | nan
  | inf (negative : Bool)
  | negZero
  | int (i : Int)
  | real (q : ℚ)
  deriving DecidableEq, Repr

/-! ### Number values and their decimal text (ECMA-262, `Number::toString`) -/

/-- The power `2 ^ e` as a rational. -/
def pow2 (e : Int) : ℚ :=
  if 0 ≤ e then ((2 ^ e.toNat : Nat) : ℚ) else 1 / ((2 ^ (-e).toNat : Nat) : ℚ)

/-- The power `10 ^ e` as a rational. -/
def pow10 (e : Int) : ℚ :=
  if 0 ≤ e then ((10 ^ e.toNat : Nat) : ℚ) else 1 / ((10 ^ (-e).toNat : Nat) : ℚ)

/-- The magnitude of a Number value: zero, `mantissa * 2 ^ exponent`, or infinite. -/
inductive Magnitude where
  | zero
  | finite (mantissa : Nat) (exponent : Int)
  | infinite
  deriving DecidableEq, Repr

/-- The largest `l` with `2 ^ l ≤ q`, for `q > 0`: the difference `t` of the bit lengths
of numerator and denominator, or `t - 1`. -/
def floorLog2 (q : ℚ) : Int :=
  let t : Int := ((Nat.toDigits 2 q.num.natAbs).length : Int) - ((Nat.toDigits 2 q.den).length : Int)
  if pow2 t ≤ q then t else t - 1

/-- The integer nearest to `q ≥ 0`, a tie going to the even one. -/
def roundHalfEven (q : ℚ) : Nat :=
  let f := (Rat.floor q).toNat
  let r := q - (f : ℚ)
  if r < 1 / 2 then f
  else if 1 / 2 < r then f + 1
  else if f % 2 = 0 then f
  else f + 1

/-- The magnitude of the Number value for the real `q > 0`: `q` rounded to the nearest
binary64 value (53-bit mantissa, exponents from -1074 to 971), ties to even; beyond the
largest value the result is infinite. -/
def toMagnitude (q : ℚ) : Magnitude :=
  if q ≤ 0 then .zero
  else
    let e0 := max (floorLog2 q - 52) (-1074)
    let m0 := roundHalfEven (q / pow2 e0)
    let m := if m0 = 2 ^ 53 then 2 ^ 52 else m0
    let e := if m0 = 2 ^ 53 then e0 + 1 else e0
    if m = 0 then .zero
    else if 971 < e then .infinite
    else .finite m e

/-- The `n` with `10 ^ (n - 1) ≤ v < 10 ^ n`, for `v > 0`: the difference `t` of the
decimal lengths of numerator and denominator, or `t + 1`. -/
def decimalPosition (v : ℚ) : Int :=
  let t : Int := ((Nat.repr v.num.natAbs).length : Int) - ((Nat.repr v.den).length : Int)
  if v < pow10 t then t else t + 1

/-- The decimal `d` rounds to the binary64 value `m * 2 ^ e`: it lies between the
midpoints to the two neighbours, a midpoint counting when `m` is even. -/
def roundsTo (m : Nat) (e : Int) (d : ℚ) : Bool :=
  let v := (m : ℚ) * pow2 e
  let hi := v + pow2 (e - 1)
  let lo := if m = 2 ^ 52 ∧ -1074 < e then v - pow2 (e - 2) else v - pow2 (e - 1)
  if m % 2 = 0 then decide (lo ≤ d) && decide (d ≤ hi)
  else decide (lo < d) && decide (d < hi)

/-- The integer `s` for which `s * 10 ^ (n - k)` rounds to `m * 2 ^ e`, when there is one:
the one closest to the value, the even one when two are equally close. -/
def shortestAt (m : Nat) (e : Int) (n : Int) (k : Nat) : Option Nat :=
  let v := (m : ℚ) * pow2 e
  let u := pow10 (n - k)
  let sLo := (Rat.floor (v / u)).toNat
  let okLo := roundsTo m e ((sLo : ℚ) * u)
  let okHi := roundsTo m e (((sLo + 1 : Nat) : ℚ) * u)
  let dLo := v - (sLo : ℚ) * u
  let dHi := ((sLo + 1 : Nat) : ℚ) * u - v
  if okLo && okHi then
    if dLo < dHi then some sLo
    else if dHi < dLo then some (sLo + 1)
    else if sLo % 2 = 0 then some sLo
    else some (sLo + 1)
  else if okLo then some sLo
  else if okHi then some (sLo + 1)
  else none

/-- The digits `s` and the position `n` of `Number::toString` for `m * 2 ^ e`: the fewest
digits `k` for which some `s * 10 ^ (n - k)` rounds to the value (seventeen always do). -/
def shortestDigits (m : Nat) (e : Int) : Nat × Int :=
  let v := (m : ℚ) * pow2 e
  let n := decimalPosition v
  match (List.range 17).findSome? fun i => (shortestAt m e n (i + 1)).map fun s => (s, i + 1) with
  | some (s, k) => if s = 10 ^ k then (1, n + 1) else (s, n)
  | none => ((Rat.floor (v / pow10 (n - 17))).toNat, n)

/-- The text of `Number::toString` for the digits `s` at position `n`: plain digits,
digits with a decimal point, or exponent form when `n` is outside -5 to 21. -/
def formatDecimal (s : Nat) (n : Int) : String :=
  let ds := (Nat.repr s).data
  let k : Int := ds.length
  if k ≤ n ∧ n ≤ 21 then String.mk (ds ++ List.replicate (n - k).toNat '0')
  else if 0 < n ∧ n ≤ 21 then String.mk (ds.take n.toNat ++ '.' :: ds.drop n.toNat)
  else if -6 < n ∧ n ≤ 0 then String.mk ('0' :: '.' :: List.replicate (-n).toNat '0' ++ ds)
  else
    String.mk (ds.take 1 ++ (if ds.length = 1 then [] else '.' :: ds.drop 1)
      ++ 'e' :: (if n - 1 < 0 then '-' else '+') :: (Nat.repr (n - 1).natAbs).data)

/-- The text of `Number::toString` for the Number value for the real `q`. -/
def realToString (q : ℚ) : String :=
  match toMagnitude |q| with
  | .zero => "0"
  | .infinite => if q < 0 then "-Infinity" else "Infinity"
  | .finite m e =>
    (if q < 0 then "-" else "") ++ formatDecimal (shortestDigits m e).1 (shortestDigits m e).2

/-- The values the two modules receive: the primitives `undefined`, `null`, booleans,
numbers and strings, and three kinds of object.

* `obj props`: a plain object with the data properties `props` (first match wins).
* `error protoName props`: an instance of `Error` or of a subclass; `props` are its own
  data properties and `protoName` is the `name` found on its prototype chain
  (`"Error"`, `"TypeError"`, ...).
* `serialized message name stack code`: an instance of the class `SerializedError`, with
  the four properties its constructor assigns.

Properties of a `JSVal` are data properties, so reading one never raises; functions and
objects with accessor properties are values of `JSAny`. -/
inductive JSVal where
  | undefined
  | null
  | bool (b : Bool)
  | num (n : JSNum)
  | str (s : String)
  | obj (props : List (String × JSVal))
  | error (protoName : String) (props : List (String × JSVal))
  | serialized (message name stack code : JSVal)

/-- What the engine supplies.

* `errorStack msg`: the text of the non-standard `stack` property that the engine attaches
  to the object made by `new Error(msg)`; `none` on an engine that attaches none.
* `dateFallback s`: the time value the engine gives to a date string that is not in the
  complete UTC form `YYYY-MM-DDTHH:mm:ss.sssZ` (ECMA-262 lets an engine fall back to its
  own formats); `none` is `NaN`. -/
structure Engine where
  errorStack : String → Option String
  dateFallback : String → Option Int

/-- `ToBoolean(v)`: the falsy values are `undefined`, `null`, `false`, `+0`, `-0`, `NaN`
and the empty string. -/
def truthy : JSVal → Bool
  | .undefined => false
  | .null => false
  | .bool b => b
  | .num .nan => false
  | .num .negZero => false
  | .num (.int i) => i != 0
  | .num (.real q) =>
    match toMagnitude |q| with
    | .zero => false
    | _ => true
  | .num (.inf _) => true
  | .str s => s != ""
  | .obj _ => true
  | .error _ _ => true
  | .serialized _ _ _ _ => true

/-- The operator `typeof` on the values of `JSVal`, none of which is callable
(`JSAny.typeof` gives `"function"` for a function). -/
def typeof : JSVal → String
  | .undefined => "undefined"
  | .null => "object"
  | .bool _ => "boolean"
  | .num _ => "number"
  | .str _ => "string"
  | .obj _ => "object"
  | .error _ _ => "object"
  | .serialized _ _ _ _ => "object"

/-- The test `v instanceof Error`. -/
def instanceofError : JSVal → Bool
  | .error _ _ => true
  | _ => false

/-- The test `v instanceof SerializedError`. -/
def instanceofSerializedError : JSVal → Bool
  | .serialized _ _ _ _ => true
  | _ => false

/-- The own or inherited data property `k` of `v`, when there is one.  Primitives have
none of the keys the module reads (`message`, `name`, `stack`, `code`) on their wrapper
prototypes, and neither has `Object.prototype`; `Error.prototype` carries `name` and an
empty `message`. -/
def field (v : JSVal) (k : String) : Option JSVal :=
  match v with
  | .obj props => props.lookup k
  | .error protoName props =>
    match props.lookup k with
    | some x => some x
    | none =>
      if k == "name" then some (.str protoName)
      else if k == "message" then some (.str "")
      else none
  | .serialized message name stack code =>
    if k == "message" then some message
    else if k == "name" then some name
    else if k == "stack" then some stack
    else if k == "code" then some code
    else none
  | _ => none

/-- Property read `v.k`: a `TypeError` on `null` and `undefined`, `undefined` for a
property that is not there.  The properties of a `JSVal` are data properties; a read
that runs a getter is `JSAny.optChain`. -/
def getProp (v : JSVal) (k : String) : Except JSErr JSVal :=
  match v with
  | .undefined => .error .typeError
  | .null => .error .typeError
  | _ => .ok ((field v k).getD .undefined)

/-- Optional chaining `v?.k`: `undefined` when `v` is `null` or `undefined`, else `v.k`. -/
def optChain (v : JSVal) (k : String) : Except JSErr JSVal :=
  match v with
  | .undefined => .ok .undefined
  | .null => .ok .undefined
  | _ => getProp v k

/-- The operator `a || b` on values already evaluated (`b` is a literal at every use). -/
def jsOr (a b : JSVal) : JSVal :=
  if truthy a then a else b

/-- `Number::toString` in radix 10. -/
def numberToString : JSNum → String
  | .nan => "NaN"
  | .inf false => "Infinity"
  | .inf true => "-Infinity"
  | .negZero => "0"
  | .int i => realToString i
  | .real q => realToString q

/-- `String(v)` for a primitive `v`.  For an object `String` runs `ToPrimitive`, which
calls methods of the object; the module only applies `String` to primitives, and the
object cases are reported here as a `TypeError`. -/
def jsString : JSVal → Except JSErr String
  | .undefined => .ok "undefined"
  | .null => .ok "null"
  | .bool true => .ok "true"
  | .bool false => .ok "false"
  | .num n => .ok (numberToString n)
  | .str s => .ok s
  | _ => .error .typeError

/-- `new Error(msg)`: an `Error` instance with the own property `message` and, when the
engine attaches one, the own property `stack`. -/
def newError (eng : Engine) (msg : String) : JSVal :=
  .error "Error"
    (("message", .str msg) ::
      match eng.errorStack msg with
      | some st => [("stack", .str st)]
      | none => [])

/-! ## errors.js -/

/-- The constructor of `SerializedError` (errors.js lines 2-7). -/
def SerializedError.constructor (error : JSVal) : Except JSErr JSVal := do
  let message := jsOr (← optChain error "message") (.str "Unknown error")
  let name := jsOr (← optChain error "name") (.str "Error")
  let stack := jsOr (← optChain error "stack") (.str "")
  let code := jsOr (← optChain error "code") .null
  pure (.serialized message name stack code)

/-- The function `serializeError` (errors.js lines 23-26). -/
def serializeError (error : JSVal) : Except JSErr JSVal :=
  if instanceofSerializedError error then pure error
  else SerializedError.constructor error

/-- The function `normalizeError` (errors.js lines 28-33). -/
def normalizeError (eng : Engine) (error : JSVal) : Except JSErr JSVal := do
  if !truthy error then pure .null
  else if instanceofError error then serializeError error
  else if typeof error == "object" then SerializedError.constructor error
  else SerializedError.constructor (newError eng (← jsString error))

/-- The value is one of the primitives. -/
def isPrimitive : JSVal → Bool
  | .undefined => true
  | .null => true
  | .bool _ => true
  | .num _ => true
  | .str _ => true
  | _ => false

/-- The field of a new record in the words of the specification: the field `k` of the
input when it is present and truthy, otherwise the default `dflt`. -/
def fieldOrDefault (x : JSVal) (k : String) (dflt : JSVal) : JSVal :=
  match field x k with
  | some v => if truthy v then v else dflt
  | none => dflt

/-- The record of the specification for an input that is not yet a `SerializedError`:
every field read off the input, with the four defaults. -/
def specRecord (x : JSVal) : JSVal :=
  .serialized (fieldOrDefault x "message" (.str "Unknown error"))
    (fieldOrDefault x "name" (.str "Error"))
    (fieldOrDefault x "stack" (.str ""))
    (fieldOrDefault x "code" .null)

/-- An engine that attaches no `stack` to an error and knows no date format of its own. -/
def bareEngine : Engine :=
  ⟨fun _ => none, fun _ => none⟩

/-- An engine that attaches a stack trace to every error it creates, headed as V8 heads
it, and knows no date format of its own. -/
def tracingEngine : Engine :=
  ⟨fun msg => some ("Error: " ++ msg ++ "\n    at normalizeError"), fun _ => none⟩

/-! ## Date values (ECMA-262, section "Date Objects") -/

/-- Milliseconds in a day. -/
def msPerDay : Int := 86400000

/-- Milliseconds in an hour. -/
def msPerHour : Int := 3600000

/-- Milliseconds in a minute. -/
def msPerMinute : Int := 60000

/-- Milliseconds in a second. -/
def msPerSecond : Int := 1000

/-- The largest magnitude of a time value, `8.64e15` ms either side of the epoch. -/
def maxTime : Int := 8640000000000000

/-- `Day(t)`: the day number of a time value (floor division). -/
def Day (t : Int) : Int := t / msPerDay

/-- `TimeWithinDay(t)`. -/
def TimeWithinDay (t : Int) : Int := t % msPerDay

/-- `DaysInYear(y)`. -/
def DaysInYear (y : Int) : Int :=
  if y % 4 ≠ 0 then 365
  else if y % 100 ≠ 0 then 366
  else if y % 400 ≠ 0 then 365
  else 366

/-- `DayFromYear(y)`: the day number of the first day of year `y`. -/
def DayFromYear (y : Int) : Int :=
  365 * (y - 1970) + (y - 1969) / 4 - (y - 1901) / 100 + (y - 1601) / 400

/-- The year containing day number `d`: the largest `y` with `DayFromYear(y) ≤ d`, found
from the estimate `1970 + ⌊400 d / 146097⌋`, which is off by at most one. -/
def yearFromDay (d : Int) : Int :=
  let y := 1970 + d * 400 / 146097
  if DayFromYear (y + 1) ≤ d then y + 1
  else if DayFromYear y ≤ d then y
  else y - 1

/-- `YearFromTime(t)`. -/
def YearFromTime (t : Int) : Int := yearFromDay (Day t)

/-- `InLeapYear(t)`, as 0 or 1. -/
def InLeapYear (t : Int) : Int :=
  if DaysInYear (YearFromTime t) = 366 then 1 else 0

/-- `DayWithinYear(t)`. -/
def DayWithinYear (t : Int) : Int := Day t - DayFromYear (YearFromTime t)

/-- The day within the year on which month `m` (0 = January) starts; `leap` is 0 or 1.
`monthStart 12` is the length of the year. -/
def monthStart (m : Int) (leap : Int) : Int :=
  if m ≤ 0 then 0
  else if m = 1 then 31
  else if m = 2 then 59 + leap
  else if m = 3 then 90 + leap
  else if m = 4 then 120 + leap
  else if m = 5 then 151 + leap
  else if m = 6 then 181 + leap
  else if m = 7 then 212 + leap
  else if m = 8 then 243 + leap
  else if m = 9 then 273 + leap
  else if m = 10 then 304 + leap
  else if m = 11 then 334 + leap
  else 365 + leap

/-- The month (0 = January) of day `d` within a year; `leap` is 0 or 1. -/
def monthOfDay (d leap : Int) : Int :=
  if d < 31 then 0
  else if d < 59 + leap then 1
  else if d < 90 + leap then 2
  else if d < 120 + leap then 3
  else if d < 151 + leap then 4
  else if d < 181 + leap then 5
  else if d < 212 + leap then 6
  else if d < 243 + leap then 7
  else if d < 273 + leap then 8
  else if d < 304 + leap then 9
  else if d < 334 + leap then 10
  else 11

/-- `MonthFromTime(t)`, 0 = January. -/
def MonthFromTime (t : Int) : Int := monthOfDay (DayWithinYear t) (InLeapYear t)

/-- `DateFromTime(t)`: the day of the month, from 1. -/
def DateFromTime (t : Int) : Int :=
  DayWithinYear t - monthStart (MonthFromTime t) (InLeapYear t) + 1

/-- `HourFromTime(t)`. -/
def HourFromTime (t : Int) : Int := t / msPerHour % 24

/-- `MinFromTime(t)`. -/
def MinFromTime (t : Int) : Int := t / msPerMinute % 60

/-- `SecFromTime(t)`. -/
def SecFromTime (t : Int) : Int := t / msPerSecond % 60

/-- `msFromTime(t)`. -/
def msFromTime (t : Int) : Int := t % msPerSecond

/-- `MakeTime(hour, min, sec, ms)`. -/
def MakeTime (hour min sec ms : Int) : Int :=
  hour * msPerHour + min * msPerMinute + sec * msPerSecond + ms

/-- `MakeDay(year, month, date)` with `month` counted from 0. -/
def MakeDay (year month date : Int) : Int :=
  let ym := year + month / 12
  let mn := month % 12
  let leap := if DaysInYear ym = 366 then 1 else 0
  DayFromYear ym + monthStart mn leap + date - 1

/-- `MakeDate(day, time)`. -/
def MakeDate (day time : Int) : Int := day * msPerDay + time

/-- `TimeClip`: a time value beyond `maxTime` becomes `NaN` (`none`). -/
def TimeClip (t : Option Int) : Option Int :=
  match t with
  | some v => if v < -maxTime ∨ maxTime < v then none else some v
  | none => none

/-- A `Date` object: its time value, `none` for `NaN` (an invalid date). -/
structure JSDate where
  timeValue : Option Int
  deriving DecidableEq, Repr

/-! ### Rendering and reading the ISO format -/

/-- The decimal digit `d` as a character. -/
def digitChar (d : Nat) : Char := Char.ofNat (48 + d % 10)

/-- The value of a decimal digit character. -/
def digitValue (c : Char) : Option Nat :=
  if 48 ≤ c.toNat ∧ c.toNat ≤ 57 then some (c.toNat - 48) else none

/-- The last `width` decimal digits of `n`, zero-padded on the left. -/
def padDigits : Nat → Nat → List Char
  | 0, _ => []
  | width + 1, n => padDigits width (n / 10) ++ [digitChar n]

/-- The year field of the ISO format: four digits for the years 0 to 9999, otherwise a
sign and six digits. -/
def yearChars (y : Int) : List Char :=
  if 0 ≤ y ∧ y ≤ 9999 then padDigits 4 y.toNat
  else if y < 0 then '-' :: padDigits 6 y.natAbs
  else '+' :: padDigits 6 y.natAbs

/-- The text `Date.prototype.toISOString` produces for the time value `t`:
`YYYY-MM-DDTHH:mm:ss.sssZ`. -/
def isoChars (t : Int) : List Char :=
  yearChars (YearFromTime t) ++ '-' :: padDigits 2 (MonthFromTime t + 1).toNat
    ++ '-' :: padDigits 2 (DateFromTime t).toNat
    ++ 'T' :: padDigits 2 (HourFromTime t).toNat
    ++ ':' :: padDigits 2 (MinFromTime t).toNat
    ++ ':' :: padDigits 2 (SecFromTime t).toNat
    ++ '.' :: padDigits 3 (msFromTime t).toNat
    ++ ['Z']

/-- `Date.prototype.toISOString`: a `RangeError` on an invalid date. -/
def JSDate.toISOString (d : JSDate) : Except JSErr String :=
  match d.timeValue with
  | none => .error .rangeError
  | some t => .ok (String.mk (isoChars t))

/-- Reads `width` decimal digits off the front of `cs`, most significant first. -/
def readDigits : Nat → List Char → Option (Nat × List Char)
  | 0, cs => some (0, cs)
  | width + 1, cs =>
    match readDigits width cs with
    | some (hi, c :: rest) =>
      match digitValue c with
      | some d => some (hi * 10 + d, rest)
      | none => none
    | _ => none

/-- Reads the character `c` off the front of the input. -/
def readChar (c : Char) : List Char → Option (List Char)
  | d :: rest => if d = c then some rest else none
  | [] => none

/-- Reads the year field: `YYYY`, `+YYYYYY` or `-YYYYYY` (`-000000` is not a year). -/
def readYear (cs : List Char) : Option (Int × List Char) :=
  match cs with
  | c :: rest =>
    if c = '+' then
      match readDigits 6 rest with
      | some (y, r) => some ((y : Int), r)
      | none => none
    else if c = '-' then
      match readDigits 6 rest with
      | some (y, r) => if y = 0 then none else some (-(y : Int), r)
      | none => none
    else
      match readDigits 4 cs with
      | some (y, r) => some ((y : Int), r)
      | none => none
  | [] => none

/-- The elements of a date-time string. -/
structure IsoFields where
  year : Int
  month : Nat
  date : Nat
  hour : Nat
  min : Nat
  sec : Nat
  ms : Nat
  deriving DecidableEq, Repr

/-- Splits a string of the complete UTC form `YYYY-MM-DDTHH:mm:ss.sssZ` (or with the
signed six-digit year) into its elements; `none` when the string has another shape. -/
def readIsoFields (cs : List Char) : Option IsoFields :=
  (readYear cs).bind fun (year, cs) =>
  (readChar '-' cs).bind fun cs =>
  (readDigits 2 cs).bind fun (month, cs) =>
  (readChar '-' cs).bind fun cs =>
  (readDigits 2 cs).bind fun (date, cs) =>
  (readChar 'T' cs).bind fun cs =>
  (readDigits 2 cs).bind fun (hour, cs) =>
  (readChar ':' cs).bind fun cs =>
  (readDigits 2 cs).bind fun (min, cs) =>
  (readChar ':' cs).bind fun cs =>
  (readDigits 2 cs).bind fun (sec, cs) =>
  (readChar '.' cs).bind fun cs =>
  (readDigits 3 cs).bind fun (ms, cs) =>
  (readChar 'Z' cs).bind fun cs =>
  if cs.isEmpty then some ⟨year, month, date, hour, min, sec, ms⟩ else none

/-- The elements are in range: month 01-12, day 01-31, hour 00-24 with 24 only as
`24:00:00.000`, minute and second 00-59. -/
def IsoFields.inRange (f : IsoFields) : Bool :=
  decide (1 ≤ f.month) && decide (f.month ≤ 12) && decide (1 ≤ f.date)
    && decide (f.date ≤ 31) && decide (f.min ≤ 59) && decide (f.sec ≤ 59)
    && (decide (f.hour ≤ 23)
        || (decide (f.hour = 24) && decide (f.min = 0) && decide (f.sec = 0)
            && decide (f.ms = 0)))

/-- The time value the elements denote, in UTC. -/
def IsoFields.time (f : IsoFields) : Int :=
  MakeDate (MakeDay f.year ((f.month : Int) - 1) (f.date : Int))
    (MakeTime (f.hour : Int) (f.min : Int) (f.sec : Int) (f.ms : Int))

/-- The time value of a string in the complete UTC form of the ECMA-262 date-time string
format with every element in range; `none` for any other string. -/
def isoUtcTime (cs : List Char) : Option Int :=
  match readIsoFields cs with
  | some f => if f.inRange then some f.time else none
  | none => none

/-- The elements `toISOString` renders for the time value `t`. -/
def isoFieldsOf (t : Int) : IsoFields :=
  ⟨YearFromTime t, (MonthFromTime t + 1).toNat, (DateFromTime t).toNat,
    (HourFromTime t).toNat, (MinFromTime t).toNat, (SecFromTime t).toNat,
    (msFromTime t).toNat⟩

/-- `Date.parse(s)`: the ISO reading when `s` is in the complete UTC form, otherwise
whatever the engine makes of `s`; clipped to the range of time values. -/
def Date.parse (eng : Engine) (s : String) : Option Int :=
  TimeClip
    (match isoUtcTime s.data with
     | some t => some t
     | none => eng.dateFallback s)

/-! ## timestamps.js -/

/-- The arguments `parseISO` is called with: ISO text, or a missing value. -/
inductive IsoArg where
  | undefined
  | null
  | str (s : String)
  deriving DecidableEq, Repr

/-- An argument of `parseISO` as a value. -/
def IsoArg.toVal : IsoArg → JSVal
  | .undefined => .undefined
  | .null => .null
  | .str s => .str s

/-- `new Date(v)` with one argument: `Date.parse` on a string, `ToNumber` on `null` (0)
and `undefined` (`NaN`).  It does not raise on any of these. -/
def newDate (eng : Engine) (v : IsoArg) : Except JSErr JSDate :=
  match v with
  | .str s => .ok ⟨Date.parse eng s⟩
  | .null => .ok ⟨some 0⟩
  | .undefined => .ok ⟨none⟩

/-- The function `parseISO` (timestamps.js lines 16-23); `none` is `null`. -/
def parseISO (eng : Engine) (isoString : IsoArg) : Except JSErr (Option JSDate) :=
  if !truthy isoString.toVal then pure none
  else
    match newDate eng isoString with
    | .ok d => pure (some d)
    | .error _ => pure none

/-! ## Text conversion, the methods of `SerializedError`, the clock -/

mutual
/-- `ToString(v)`, as a template literal applies it.  A primitive converts as under
`String`.  An object converts through `ToPrimitive` with hint string: the method
`toString` is looked up first, and since no property value of the embedding is callable
an own property `toString` (or one after it, `valueOf`) cannot produce a primitive, which
is a `TypeError`; without one the inherited method runs: `Object.prototype.toString`
(`"[object Object]"`), `Error.prototype.toString`, or the `toString` of
`SerializedError` (errors.js lines 18-20). -/
def toStringVal : JSVal → Except JSErr String
  | .obj props =>
    match props.lookup "toString" with
    | none => .ok "[object Object]"
    | some _ => .error .typeError
  | .error protoName props =>
    match props.lookup "toString" with
    | some _ => .error .typeError
    | none =>
      match propToString props "name" "Error" protoName with
      | .error e => .error e
      | .ok name =>
        match propToString props "message" "" "" with
        | .error e => .error e
        | .ok msg =>
          .ok (if name = "" then msg else if msg = "" then name else name ++ ": " ++ msg)
  | .serialized message name _ _ =>
    match toStringVal name with
    | .error e => .error e
    | .ok n =>
      match toStringVal message with
      | .error e => .error e
      | .ok m => .ok (n ++ ": " ++ m)
  | v => jsString v
/-- The text `Error.prototype.toString` uses for the property `key`: `ifUndefined` when
the own property holds `undefined`, `ifAbsent` (what the prototype holds) when there is no
own property, else the conversion of the own value. -/
def propToString : List (String × JSVal) → String → String → String → Except JSErr String
  | [], _, _, ifAbsent => .ok ifAbsent
  | (k, v) :: rest, key, ifUndefined, ifAbsent =>
    if key == k then
      match v with
      | .undefined => .ok ifUndefined
      | _ => toStringVal v
    else propToString rest key ifUndefined ifAbsent
end

/-- The method `toJSON` of `SerializedError` (errors.js lines 9-16), called on `self`. -/
def SerializedError.toJSON (self : JSVal) : Except JSErr JSVal := do
  let message ← getProp self "message"
  let name ← getProp self "name"
  let stack ← getProp self "stack"
  let code ← getProp self "code"
  pure (.obj [("message", message), ("name", name), ("stack", stack), ("code", code)])

/-- The method `toString` of `SerializedError` (errors.js lines 18-20), called on `self`:
the template literal converts `self.name`, then `self.message`. -/
def SerializedError.toString (self : JSVal) : Except JSErr String := do
  let name ← getProp self "name"
  let n ← toStringVal name
  let message ← getProp self "message"
  let m ← toStringVal message
  pure (n ++ ": " ++ m)

/-- The names of the own properties of a property list, in order. -/
def keysOf (props : List (String × JSVal)) : List String :=
  props.map Prod.fst

/-- Sets the property `k` of a property list to `v`: in place when `k` is there, at the
end when it is new. -/
def setProp : List (String × JSVal) → String → JSVal → List (String × JSVal)
  | [], k, v => [(k, v)]
  | (k', v') :: rest, k, v =>
    if k' == k then (k', v) :: rest else (k', v') :: setProp rest k v

/-- Merging `source` into `target`, as the object spread of `target` then `source` and
`Object.assign` do on data properties: every property of `source` is set on `target`. -/
def mergeProps (target source : List (String × JSVal)) : List (String × JSVal) :=
  source.foldl (fun acc kv => setProp acc kv.1 kv.2) target

/-- A time value: an integer number of milliseconds within `maxTime` of the epoch. -/
structure TimeValue where
  ms : Int
  inRange : -maxTime ≤ ms ∧ ms ≤ maxTime

/-- The state of the system clock: the readings it will give, in order.  ECMA-262 makes
the current time a time value. -/
def Clock : Type := Nat → TimeValue

/-- The clock after `k` readings. -/
def Clock.advance (k : Nat) (c : Clock) : Clock :=
  fun n => c (n + k)

/-- One reading of the clock: the reading and the state after it. -/
def Clock.read (c : Clock) : TimeValue × Clock :=
  (c 0, c.advance 1)

/-- `new Date()`: a date holding the current time. -/
def newDateNow (c : Clock) : JSDate × Clock :=
  (⟨some c.read.1.ms⟩, c.read.2)

/-- The function `nowISO` (timestamps.js lines 1-3). -/
def nowISO (c : Clock) : Except JSErr (String × Clock) :=
  match (newDateNow c).1.toISOString with
  | .ok s => .ok (s, (newDateNow c).2)
  | .error e => .error e

/-- The function `createTimestamps` (timestamps.js lines 5-10); the initialisers of the
object literal run in order. -/
def createTimestamps (c : Clock) : Except JSErr (JSVal × Clock) :=
  match nowISO c with
  | .error e => .error e
  | .ok (createdAt, c1) =>
    match nowISO c1 with
    | .error e => .error e
    | .ok (updatedAt, c2) =>
      .ok (.obj [("createdAt", .str createdAt), ("updatedAt", .str updatedAt)], c2)

/-- The function `updateTimestamp` (timestamps.js lines 12-14). -/
def updateTimestamp (c : Clock) : Except JSErr (JSVal × Clock) :=
  match nowISO c with
  | .error e => .error e
  | .ok (updatedAt, c1) => .ok (.obj [("updatedAt", .str updatedAt)], c1)

/-- A clock that starts at the first instant of 2024 and gains a millisecond with every
reading, for a thousand readings. -/
def tickingClock : Clock :=
  fun n => ⟨1704067200000 + (min n 1000 : Nat), by unfold maxTime; omega⟩

/-- The all-defaults record. -/
def defaultRecord : JSVal :=
  .serialized (.str "Unknown error") (.str "Error") (.str "") .null

/-! ## errors.js on every kind of input -/

/-- A property of an object that has accessors: a data property holding `v`, or an
accessor property whose getter returns a value or throws. -/
inductive Slot where
  | data (v : JSVal)
  | getter (result : Except JSErr JSVal)

/-- Everything `serializeError` and `normalizeError` can be handed.

* `value v`: one of the values of `JSVal`, whose properties are data properties.
* `symbol description`: a Symbol, with its description when it has one.
* `bigint i`: the BigInt `i`.
* `func source props`: a function, a callable object: `typeof` gives `"function"`,
  `String` gives its source text `source`, and `props` are its own data properties.
* `accessors props`: a plain object some of whose properties are accessors. -/
inductive JSAny where
  | value (v : JSVal)
  | symbol (description : Option String)
  | bigint (i : Int)
  | func (source : String) (props : List (String × JSVal))
  | accessors (props : List (String × Slot))

/-- The four keys the constructor of `SerializedError` reads. -/
def fieldKeys : List String :=
  ["message", "name", "stack", "code"]

/-- `ToBoolean`: every object and every Symbol is truthy, a BigInt unless it is `0n`. -/
def JSAny.truthy : JSAny → Bool
  | .value v => SequentialUtils.truthy v
  | .symbol _ => true
  | .bigint i => i != 0
  | .func _ _ => true
  | .accessors _ => true

/-- The input is a primitive: a primitive of `JSVal`, a Symbol or a BigInt. -/
def JSAny.isPrimitive : JSAny → Bool
  | .value v => SequentialUtils.isPrimitive v
  | .symbol _ => true
  | .bigint _ => true
  | .func _ _ => false
  | .accessors _ => false

/-- The operator `typeof`. -/
def JSAny.typeof : JSAny → String
  | .value v => SequentialUtils.typeof v
  | .symbol _ => "symbol"
  | .bigint _ => "bigint"
  | .func _ _ => "function"
  | .accessors _ => "object"

/-- The test `x instanceof Error`. -/
def JSAny.instanceofError : JSAny → Bool
  | .value v => SequentialUtils.instanceofError v
  | _ => false

/-- The test `x instanceof SerializedError`. -/
def JSAny.instanceofSerializedError : JSAny → Bool
  | .value v => SequentialUtils.instanceofSerializedError v
  | _ => false

/-- Optional chaining `x?.k`.  On an accessor property the getter runs, and what it throws
is raised; `Function.prototype` carries an empty `name`; the prototypes of Symbol and
BigInt carry none of the keys the module reads. -/
def JSAny.optChain (x : JSAny) (k : String) : Except JSErr JSVal :=
  match x with
  | .value v => SequentialUtils.optChain v k
  | .symbol _ => .ok .undefined
  | .bigint _ => .ok .undefined
  | .func _ props =>
    match props.lookup k with
    | some v => .ok v
    | none => if k == "name" then .ok (.str "") else .ok .undefined
  | .accessors props =>
    match props.lookup k with
    | some (.data v) => .ok v
    | some (.getter result) => result
    | none => .ok .undefined

/-- `String(x)`: the descriptive text of a Symbol, the decimal digits of a BigInt, the
source text of a function; as `jsString` on a `JSVal`.  An object with accessors converts
through `ToPrimitive`: without an own `toString` the inherited one gives
`"[object Object]"`; an own `toString` or `valueOf` is read, which raises what a getter
throws, and as neither can hold a function the conversion ends in a `TypeError`. -/
def JSAny.jsString : JSAny → Except JSErr String
  | .value v => SequentialUtils.jsString v
  | .symbol description => .ok ("Symbol(" ++ description.getD "" ++ ")")
  | .bigint i => .ok (toString i)
  | .func source _ => .ok source
  | .accessors props =>
    match props.lookup "toString" with
    | none => .ok "[object Object]"
    | some (.getter (.error e)) => .error e
    | some _ =>
      match props.lookup "valueOf" with
      | some (.getter (.error e)) => .error e
      | _ => .error .typeError

/-- The constructor of `SerializedError` (errors.js lines 2-7) on any input: the four
reads run in order and the first that raises ends the construction. -/
def JSAny.SerializedError.constructor (error : JSAny) : Except JSErr JSVal := do
  let message := jsOr (← error.optChain "message") (.str "Unknown error")
  let name := jsOr (← error.optChain "name") (.str "Error")
  let stack := jsOr (← error.optChain "stack") (.str "")
  let code := jsOr (← error.optChain "code") .null
  pure (.serialized message name stack code)

/-- The function `serializeError` (errors.js lines 23-26) on any input. -/
def JSAny.serializeError (error : JSAny) : Except JSErr JSAny :=
  if error.instanceofSerializedError then pure error
  else (JSAny.SerializedError.constructor error).map JSAny.value

/-- The function `normalizeError` (errors.js lines 28-33) on any input. -/
def JSAny.normalizeError (eng : Engine) (error : JSAny) : Except JSErr JSAny :=
  if !error.truthy then pure (.value .null)
  else if error.instanceofError then JSAny.serializeError error
  else if error.typeof == "object" then
    (JSAny.SerializedError.constructor error).map JSAny.value
  else
    match error.jsString with
    | .error e => .error e
    | .ok msg =>
      (JSAny.SerializedError.constructor (.value (newError eng msg))).map JSAny.value

/-- A plain object whose property `message` is an accessor with a getter that throws. -/
def throwingMessage : JSAny :=
  .accessors [("message", .getter (.error .typeError))]

/-- A function named `f`. -/
def sampleFunction : JSAny :=
  .func "function f() {}" [("name", .str "f")]

/-! ## Lemmas on errors.js -/

theorem optChain_eq (v : JSVal) (k : String) :
    optChain v k = .ok ((field v k).getD .undefined) := by
  cases v <;> rfl

theorem jsOr_eq_fieldOrDefault (x : JSVal) (k : String) (dflt : JSVal) :
    jsOr ((field x k).getD .undefined) dflt = fieldOrDefault x k dflt := by
  unfold jsOr fieldOrDefault
  cases h : field x k with
  | none => simp [truthy]
  | some v => simp

theorem constructor_eq (x : JSVal) :
    SerializedError.constructor x = .ok (specRecord x) := by
  simp only [SerializedError.constructor, optChain_eq, specRecord, bind, Except.bind, pure,
    Except.pure, jsOr_eq_fieldOrDefault]

theorem truthy_fieldOrDefault (x : JSVal) (k : String) (dflt : JSVal)
    (h : truthy dflt = true) : truthy (fieldOrDefault x k dflt) = true := by
  unfold fieldOrDefault
  cases field x k with
  | none => exact h
  | some v =>
    by_cases hv : truthy v = true
    · simp [hv]
    · simp [hv, h]

theorem truthy_ne_null {v : JSVal} (h : truthy v = true) : v ≠ .null ∧ v ≠ .undefined := by
  constructor <;> (intro e; subst e; simp [truthy] at h)

theorem toDigitsCore_ne_nil (b : Nat) :
    ∀ (fuel n : Nat) (ds : List Char), ds ≠ [] → Nat.toDigitsCore b fuel n ds ≠ [] := by
  intro fuel
  induction fuel with
  | zero => intro n ds h; simpa [Nat.toDigitsCore] using h
  | succ f ih =>
    intro n ds _
    unfold Nat.toDigitsCore
    dsimp only
    split
    · simp
    · exact ih _ _ (by simp)

theorem nat_repr_data_ne_nil (n : Nat) : (Nat.repr n).data ≠ [] := by
  unfold Nat.repr Nat.toDigits Nat.toDigitsCore
  simp only [List.asString]
  split
  · simp
  · exact toDigitsCore_ne_nil _ _ _ _ (by simp)

theorem int_toString_ne_empty (i : Int) : toString i ≠ "" := by
  intro h
  have hd : (toString i).data = [] := by rw [h]
  cases i with
  | ofNat m => exact nat_repr_data_ne_nil m hd
  | negSucc m =>
    have : (toString (Int.negSucc m)).data = '-' :: (Nat.repr (m + 1)).data := rfl
    rw [this] at hd
    exact List.cons_ne_nil _ _ hd

theorem string_ne_empty_of_data {s : String} (h : s.data ≠ []) : s ≠ "" := by
  intro e
  rw [e] at h
  exact h rfl

theorem formatDecimal_ne_empty (s : Nat) (n : Int) : (formatDecimal s n).data ≠ [] := by
  unfold formatDecimal
  dsimp only
  split
  · simp [nat_repr_data_ne_nil]
  · split
    · simp
    · split
      · simp
      · simp

theorem realToString_ne_empty (q : ℚ) : realToString q ≠ "" := by
  apply string_ne_empty_of_data
  unfold realToString
  split
  · decide
  · split <;> decide
  · rw [String.data_append]
    intro h
    exact formatDecimal_ne_empty _ _ (List.append_eq_nil.mp h).2

theorem numberToString_samples :
    numberToString (.int 42) = "42"
      ∧ numberToString (.int 1000000000000000000000) = "1e+21"
      ∧ numberToString (.int 590295810358705651712) = "590295810358705700000"
      ∧ numberToString (.real (1 / 10)) = "0.1"
      ∧ numberToString (.real (-3 / 2)) = "-1.5"
      ∧ numberToString (.real (1 / 10000000)) = "1e-7" := by
  decide!

theorem jsString_truthy (p : JSVal) (hp : isPrimitive p = true) (ht : truthy p = true) :
    ∃ msg, jsString p = .ok msg ∧ truthy (.str msg) = true := by
  cases p with
  | undefined => simp [truthy] at ht
  | null => simp [truthy] at ht
  | bool b =>
    cases b with
    | false => simp [truthy] at ht
    | true => exact ⟨"true", rfl, by decide⟩
  | num n =>
    cases n with
    | nan => simp [truthy] at ht
    | negZero => simp [truthy] at ht
    | inf s =>
      cases s with
      | false => exact ⟨"Infinity", rfl, by decide⟩
      | true => exact ⟨"-Infinity", rfl, by decide⟩
    | int i =>
      refine ⟨realToString i, rfl, ?_⟩
      simp [truthy, realToString_ne_empty]
    | real q =>
      refine ⟨realToString q, rfl, ?_⟩
      simp [truthy, realToString_ne_empty]
  | str s => exact ⟨s, rfl, ht⟩
  | obj _ => simp [isPrimitive] at hp
  | error _ _ => simp [isPrimitive] at hp
  | serialized _ _ _ _ => simp [isPrimitive] at hp

theorem normalizeError_primitive (eng : Engine) (p : JSVal) (hp : isPrimitive p = true)
    (ht : truthy p = true) (msg : String) (hm : jsString p = .ok msg) :
    normalizeError eng p = SerializedError.constructor (newError eng msg) := by
  cases p <;> simp_all [normalizeError, isPrimitive, instanceofError, typeof, truthy, bind, Except.bind]

theorem specRecord_newError (eng : Engine) (msg : String) (h : truthy (.str msg) = true) :
    specRecord (newError eng msg)
      = .serialized (.str msg) (.str "Error") (.str ((eng.errorStack msg).getD "")) .null := by
  have hm : msg ≠ "" := by simpa [truthy] using h
  unfold specRecord newError fieldOrDefault field
  cases hs : eng.errorStack msg with
  | none => simp [List.lookup, hm, truthy]
  | some st =>
    by_cases hst : st = ""
    · simp [List.lookup, hm, truthy, hst]
    · simp [List.lookup, hm, truthy, hst]

/-! ## Claims on errors.js -/

theorem lookup_cons_falsy (props : List (String × JSVal)) (k k' : String) (v dflt : JSVal)
    (hk : props.lookup k = none) (hv : truthy v = false) :
    fieldOrDefault (.obj ((k, v) :: props)) k' dflt = fieldOrDefault (.obj props) k' dflt := by
  unfold fieldOrDefault field
  by_cases h : k' = k
  · subst h
    simp [List.lookup, hk, hv]
  · have hb : (k' == k) = false := by simpa using h
    simp [List.lookup, hb]

/-- Claim C2: `serializeError` passes its own result through unchanged: with
`y = serializeError x`, `serializeError y` is `y`; and a `SerializedError` is returned as
it is. -/
theorem serializeError_idempotent (x message name stack code : JSVal) :
    (∃ y, serializeError x = .ok y ∧ serializeError y = .ok y)
      ∧ serializeError (.serialized message name stack code)
          = .ok (.serialized message name stack code) := by
  refine ⟨?_, rfl⟩
  by_cases hs : instanceofSerializedError x = true
  · exact ⟨x, by simp [serializeError, hs, pure, Except.pure],
      by simp [serializeError, hs, pure, Except.pure]⟩
  · exact ⟨specRecord x, by simp [serializeError, hs, constructor_eq], rfl⟩

/-- Counterexample to C3 as stated: on an engine that attaches a stack trace to the
`Error` it creates, `normalizeError("boom")` carries that trace in `stack`, not `""`. -/
theorem normalizeError_boom_stack_not_empty :
    normalizeError tracingEngine (.str "boom")
        = .ok (.serialized (.str "boom") (.str "Error")
            (.str "Error: boom\n    at normalizeError") .null)
      ∧ normalizeError tracingEngine (.str "boom")
        ≠ .ok (.serialized (.str "boom") (.str "Error") (.str "") .null) := by
  have h : normalizeError tracingEngine (.str "boom")
        = .ok (.serialized (.str "boom") (.str "Error")
            (.str "Error: boom\n    at normalizeError") .null) := by
    rw [normalizeError_primitive tracingEngine (.str "boom") rfl rfl "boom" rfl, constructor_eq,
      specRecord_newError tracingEngine "boom" rfl]
    rfl
  refine ⟨h, ?_⟩
  rw [h]
  simp

theorem normalizeError_primitive_record (eng : Engine) (p : JSVal)
    (hp : isPrimitive p = true) (ht : truthy p = true) :
    ∃ msg, jsString p = .ok msg
      ∧ normalizeError eng p
          = .ok (.serialized (.str msg) (.str "Error")
              (.str ((eng.errorStack msg).getD "")) .null) := by
  obtain ⟨msg, hm, hmt⟩ := jsString_truthy p hp ht
  exact ⟨msg, hm, by
    rw [normalizeError_primitive eng p hp ht msg hm, constructor_eq,
      specRecord_newError eng msg hmt]⟩

/-- Claim C5: for an input that is not a `SerializedError`, `serializeError` returns the
record whose four fields are the input's fields when present and truthy and the defaults
otherwise; and an object with a falsy property gives the same result as the object
without that property. -/
theorem serializeError_reads_fields (x : JSVal) (hx : instanceofSerializedError x = false)
    (props : List (String × JSVal)) (k : String) (v : JSVal)
    (hk : props.lookup k = none) (hv : truthy v = false) :
    serializeError x = .ok (specRecord x)
      ∧ serializeError (.obj ((k, v) :: props)) = serializeError (.obj props) := by
  constructor
  · simp [serializeError, hx, constructor_eq]
  · simp only [serializeError, instanceofSerializedError, constructor_eq, specRecord,
      lookup_cons_falsy props k _ v _ hk hv]
    rfl

/-- Witness for C5: a plain object with `message`, and `code: 0` added to it. -/
theorem serializeError_reads_fields_witness :
    serializeError (.obj [("message", .str "x")])
        = .ok (specRecord (.obj [("message", .str "x")]))
      ∧ serializeError (.obj [("code", .num (.int 0)), ("message", .str "x")])
        = serializeError (.obj [("message", .str "x")]) :=
  serializeError_reads_fields (.obj [("message", .str "x")]) rfl
    [("message", .str "x")] "code" (.num (.int 0)) rfl rfl

/-- Claim C6: `normalizeError` returns `null` for every falsy input. -/
theorem normalizeError_falsy (eng : Engine) (x : JSVal) (h : truthy x = false) :
    normalizeError eng x = .ok .null := by
  simp [normalizeError, h, pure, Except.pure]

/-- Witness for C6 at the empty string. -/
theorem normalizeError_falsy_witness :
    normalizeError bareEngine (.str "") = .ok .null :=
  normalizeError_falsy bareEngine (.str "") rfl

/-- Claim C8: for an `Error` instance `e`, `normalizeError` returns what `serializeError`
returns: the record carrying the message, name, stack and code of `e`, with the defaults
for the falsy ones. -/
theorem normalizeError_error_instance (eng : Engine) (e : JSVal)
    (he : instanceofError e = true) :
    normalizeError eng e = serializeError e ∧ serializeError e = .ok (specRecord e) := by
  cases e <;> simp_all [normalizeError, instanceofError, truthy, serializeError,
    instanceofSerializedError, constructor_eq]

/-- Witness for C8 at a `TypeError` with a message and a stack. -/
theorem normalizeError_error_instance_witness :
    normalizeError bareEngine
        (.error "TypeError" [("message", .str "bad arg"), ("stack", .str "TypeError: bad arg")])
      = serializeError
        (.error "TypeError" [("message", .str "bad arg"), ("stack", .str "TypeError: bad arg")])
    ∧ serializeError
        (.error "TypeError" [("message", .str "bad arg"), ("stack", .str "TypeError: bad arg")])
      = .ok (.serialized (.str "bad arg") (.str "TypeError") (.str "TypeError: bad arg") .null) :=
  normalizeError_error_instance bareEngine
    (.error "TypeError" [("message", .str "bad arg"), ("stack", .str "TypeError: bad arg")]) rfl

/-! ## Calendar arithmetic -/

theorem yearFromDay_spec (d : Int) :
    DayFromYear (yearFromDay d) ≤ d ∧ d < DayFromYear (yearFromDay d + 1) := by
  unfold yearFromDay
  simp only []
  split
  · unfold DayFromYear at *
    omega
  · split
    · unfold DayFromYear at *
      omega
    · rw [Int.sub_add_cancel]
      unfold DayFromYear at *
      omega

theorem DayFromYear_succ (y : Int) : DayFromYear (y + 1) = DayFromYear y + DaysInYear y := by
  unfold DayFromYear DaysInYear
  split
  · omega
  · split
    · omega
    · split <;> omega

theorem DaysInYear_cases (y : Int) : DaysInYear y = 365 ∨ DaysInYear y = 366 := by
  unfold DaysInYear
  split_ifs <;> simp

theorem InLeapYear_cases (t : Int) :
    (InLeapYear t = 0 ∧ DaysInYear (YearFromTime t) = 365)
      ∨ (InLeapYear t = 1 ∧ DaysInYear (YearFromTime t) = 366) := by
  unfold InLeapYear
  rcases DaysInYear_cases (YearFromTime t) with h | h <;> simp [h]

theorem DayWithinYear_range (t : Int) :
    0 ≤ DayWithinYear t ∧ DayWithinYear t < 365 + InLeapYear t := by
  have hy := yearFromDay_spec (Day t)
  have hs := DayFromYear_succ (yearFromDay (Day t))
  have hl := InLeapYear_cases t
  unfold DayWithinYear YearFromTime at *
  omega

theorem monthStart_values (l : Int) :
    monthStart 0 l = 0 ∧ monthStart 1 l = 31 ∧ monthStart 2 l = 59 + l ∧ monthStart 3 l = 90 + l
      ∧ monthStart 4 l = 120 + l ∧ monthStart 5 l = 151 + l ∧ monthStart 6 l = 181 + l
      ∧ monthStart 7 l = 212 + l ∧ monthStart 8 l = 243 + l ∧ monthStart 9 l = 273 + l
      ∧ monthStart 10 l = 304 + l ∧ monthStart 11 l = 334 + l := by
  refine ⟨rfl, rfl, rfl, rfl, rfl, rfl, rfl, rfl, rfl, rfl, rfl, rfl⟩

theorem monthOfDay_spec (d l : Int) (h0 : 0 ≤ d) (hl : l = 0 ∨ l = 1) (h1 : d < 365 + l) :
    0 ≤ monthOfDay d l ∧ monthOfDay d l ≤ 11
      ∧ monthStart (monthOfDay d l) l ≤ d ∧ d ≤ monthStart (monthOfDay d l) l + 30 := by
  unfold monthOfDay
  by_cases c0 : d < 31
  · rw [if_pos c0, (monthStart_values l).1]; omega
  rw [if_neg c0]
  by_cases c1 : d < 59 + l
  · rw [if_pos c1, (monthStart_values l).2.1]; omega
  rw [if_neg c1]
  by_cases c2 : d < 90 + l
  · rw [if_pos c2, (monthStart_values l).2.2.1]; omega
  rw [if_neg c2]
  by_cases c3 : d < 120 + l
  · rw [if_pos c3, (monthStart_values l).2.2.2.1]; omega
  rw [if_neg c3]
  by_cases c4 : d < 151 + l
  · rw [if_pos c4, (monthStart_values l).2.2.2.2.1]; omega
  rw [if_neg c4]
  by_cases c5 : d < 181 + l
  · rw [if_pos c5, (monthStart_values l).2.2.2.2.2.1]; omega
  rw [if_neg c5]
  by_cases c6 : d < 212 + l
  · rw [if_pos c6, (monthStart_values l).2.2.2.2.2.2.1]; omega
  rw [if_neg c6]
  by_cases c7 : d < 243 + l
  · rw [if_pos c7, (monthStart_values l).2.2.2.2.2.2.2.1]; omega
  rw [if_neg c7]
  by_cases c8 : d < 273 + l
  · rw [if_pos c8, (monthStart_values l).2.2.2.2.2.2.2.2.1]; omega
  rw [if_neg c8]
  by_cases c9 : d < 304 + l
  · rw [if_pos c9, (monthStart_values l).2.2.2.2.2.2.2.2.2.1]; omega
  rw [if_neg c9]
  by_cases c10 : d < 334 + l
  · rw [if_pos c10, (monthStart_values l).2.2.2.2.2.2.2.2.2.2.1]; omega
  rw [if_neg c10]
  rw [(monthStart_values l).2.2.2.2.2.2.2.2.2.2.2]; omega

theorem InLeapYear_bit (t : Int) : InLeapYear t = 0 ∨ InLeapYear t = 1 := by
  rcases InLeapYear_cases t with h | h <;> simp [h.1]

theorem MonthFromTime_range (t : Int) : 0 ≤ MonthFromTime t ∧ MonthFromTime t ≤ 11 := by
  have hd := DayWithinYear_range t
  have hm := monthOfDay_spec (DayWithinYear t) (InLeapYear t) hd.1 (InLeapYear_bit t) hd.2
  exact ⟨hm.1, hm.2.1⟩

theorem DateFromTime_range (t : Int) : 1 ≤ DateFromTime t ∧ DateFromTime t ≤ 31 := by
  have hd := DayWithinYear_range t
  have hm := monthOfDay_spec (DayWithinYear t) (InLeapYear t) hd.1 (InLeapYear_bit t) hd.2
  unfold DateFromTime MonthFromTime
  omega

theorem MakeDay_fromTime (t : Int) :
    MakeDay (YearFromTime t) (MonthFromTime t + 1 - 1) (DateFromTime t) = Day t := by
  have hm := MonthFromTime_range t
  have h12 : (MonthFromTime t + 1 - 1) / 12 = 0 := by omega
  have hmod : (MonthFromTime t + 1 - 1) % 12 = MonthFromTime t := by omega
  unfold MakeDay
  simp only [h12, hmod, add_zero]
  have hleap : (if DaysInYear (YearFromTime t) = 366 then (1 : Int) else 0) = InLeapYear t := rfl
  rw [hleap]
  unfold DateFromTime DayWithinYear
  omega

theorem MakeTime_fromTime (t : Int) :
    MakeDate (Day t) (MakeTime (HourFromTime t) (MinFromTime t) (SecFromTime t) (msFromTime t))
      = t := by
  unfold MakeDate MakeTime Day HourFromTime MinFromTime SecFromTime msFromTime msPerDay
    msPerHour msPerMinute msPerSecond
  omega

theorem timeFields_range (t : Int) :
    0 ≤ HourFromTime t ∧ HourFromTime t ≤ 23 ∧ 0 ≤ MinFromTime t ∧ MinFromTime t ≤ 59
      ∧ 0 ≤ SecFromTime t ∧ SecFromTime t ≤ 59 ∧ 0 ≤ msFromTime t ∧ msFromTime t ≤ 999 := by
  unfold HourFromTime MinFromTime SecFromTime msFromTime msPerHour msPerMinute msPerSecond
  omega

theorem YearFromTime_range (t : Int) (h1 : -maxTime ≤ t) (h2 : t ≤ maxTime) :
    -271821 ≤ YearFromTime t ∧ YearFromTime t ≤ 275760 := by
  have hy := yearFromDay_spec (Day t)
  unfold YearFromTime
  generalize yearFromDay (Day t) = y at *
  unfold DayFromYear Day msPerDay at hy
  unfold maxTime at *
  omega

/-! ## Reading back what `toISOString` renders -/

theorem digit_facts : ∀ m : Fin 10,
    digitValue (Char.ofNat (48 + m.val)) = some m.val
      ∧ Char.ofNat (48 + m.val) ≠ '+' ∧ Char.ofNat (48 + m.val) ≠ '-' := by
  decide

theorem digitValue_digitChar (n : Nat) : digitValue (digitChar n) = some (n % 10) :=
  (digit_facts ⟨n % 10, Nat.mod_lt _ (by decide)⟩).1

theorem digitChar_ne_sign (n : Nat) : digitChar n ≠ '+' ∧ digitChar n ≠ '-' :=
  (digit_facts ⟨n % 10, Nat.mod_lt _ (by decide)⟩).2

theorem readDigits_padDigits (width : Nat) :
    ∀ (n : Nat) (rest : List Char),
      readDigits width (padDigits width n ++ rest) = some (n % 10 ^ width, rest) := by
  induction width with
  | zero => intro n rest; simp [readDigits, padDigits, Nat.mod_one]
  | succ w ih =>
    intro n rest
    have hmod : n % 10 ^ (w + 1) = n / 10 % 10 ^ w * 10 + n % 10 := by
      rw [pow_succ', Nat.mod_mul]; omega
    simp only [readDigits, padDigits, List.append_assoc, List.singleton_append, ih,
      digitValue_digitChar, hmod]

theorem readYear_yearChars (y : Int) (h1 : -999999 ≤ y) (h2 : y ≤ 999999)
    (rest : List Char) : readYear (yearChars y ++ rest) = some (y, rest) := by
  unfold yearChars
  by_cases hy : 0 ≤ y ∧ y ≤ 9999
  · rw [if_pos hy]
    have hr := readDigits_padDigits 4 y.toNat rest
    have hmod : y.toNat % 10 ^ 4 = y.toNat := Nat.mod_eq_of_lt (by omega)
    have hcast : ((y.toNat : Nat) : Int) = y := Int.toNat_of_nonneg hy.1
    rw [hmod] at hr
    obtain ⟨tl, htl⟩ : ∃ tl, padDigits 4 y.toNat ++ rest
        = digitChar (y.toNat / 10 / 10 / 10) :: tl := by
      simp [padDigits]
    unfold readYear
    rw [htl]
    simp only [(digitChar_ne_sign _).1, (digitChar_ne_sign _).2, if_false]
    rw [← htl, hr]
    simp only [hcast]
  · rw [if_neg hy]
    by_cases hneg : y < 0
    · rw [if_pos hneg]
      have hr := readDigits_padDigits 6 y.natAbs rest
      have hmod : y.natAbs % 10 ^ 6 = y.natAbs := Nat.mod_eq_of_lt (by omega)
      rw [hmod] at hr
      have h0 : y.natAbs ≠ 0 := by omega
      have hcast : -((y.natAbs : Nat) : Int) = y := by omega
      have hne : ('-' : Char) ≠ '+' := by decide
      simp only [readYear, List.cons_append, hne, if_false, if_true, hr, h0, hcast]
    · rw [if_neg hneg]
      have hr := readDigits_padDigits 6 y.natAbs rest
      have hmod : y.natAbs % 10 ^ 6 = y.natAbs := Nat.mod_eq_of_lt (by omega)
      rw [hmod] at hr
      have hcast : ((y.natAbs : Nat) : Int) = y := by omega
      simp only [readYear, List.cons_append, if_true, hr, hcast]

theorem readIsoFields_isoChars (t : Int) (h1 : -maxTime ≤ t) (h2 : t ≤ maxTime) :
    readIsoFields (isoChars t) = some (isoFieldsOf t) := by
  have hy := YearFromTime_range t h1 h2
  have hm := MonthFromTime_range t
  have hd := DateFromTime_range t
  have ht := timeFields_range t
  have e1 : (MonthFromTime t + 1).toNat % 10 ^ 2 = (MonthFromTime t + 1).toNat :=
    Nat.mod_eq_of_lt (by omega)
  have e2 : (DateFromTime t).toNat % 10 ^ 2 = (DateFromTime t).toNat :=
    Nat.mod_eq_of_lt (by omega)
  have e3 : (HourFromTime t).toNat % 10 ^ 2 = (HourFromTime t).toNat :=
    Nat.mod_eq_of_lt (by omega)
  have e4 : (MinFromTime t).toNat % 10 ^ 2 = (MinFromTime t).toNat :=
    Nat.mod_eq_of_lt (by omega)
  have e5 : (SecFromTime t).toNat % 10 ^ 2 = (SecFromTime t).toNat :=
    Nat.mod_eq_of_lt (by omega)
  have e6 : (msFromTime t).toNat % 10 ^ 3 = (msFromTime t).toNat :=
    Nat.mod_eq_of_lt (by omega)
  have hyr := readYear_yearChars (YearFromTime t) (by omega) (by omega)
  simp only [isoChars, readIsoFields, List.append_assoc, List.cons_append, hyr,
    Option.some_bind, readChar, if_true, readDigits_padDigits, e1, e2, e3, e4, e5, e6,
    List.isEmpty_nil, isoFieldsOf]

theorem isoFieldsOf_inRange (t : Int) : (isoFieldsOf t).inRange = true := by
  have hm := MonthFromTime_range t
  have hd := DateFromTime_range t
  have ht := timeFields_range t
  simp only [IsoFields.inRange, isoFieldsOf, Bool.and_eq_true, Bool.or_eq_true,
    decide_eq_true_eq]
  omega

theorem isoFieldsOf_time (t : Int) : (isoFieldsOf t).time = t := by
  have hm := MonthFromTime_range t
  have hd := DateFromTime_range t
  have ht := timeFields_range t
  simp only [IsoFields.time, isoFieldsOf]
  rw [Int.toNat_of_nonneg (by omega), Int.toNat_of_nonneg (by omega),
    Int.toNat_of_nonneg (by omega), Int.toNat_of_nonneg (by omega),
    Int.toNat_of_nonneg (by omega), Int.toNat_of_nonneg (by omega),
    MakeDay_fromTime, MakeTime_fromTime]

theorem parse_isoChars (eng : Engine) (t : Int) (h1 : -maxTime ≤ t) (h2 : t ≤ maxTime) :
    Date.parse eng (String.mk (isoChars t)) = some t := by
  have hclip : ¬ (t < -maxTime ∨ maxTime < t) := by omega
  simp only [Date.parse, isoUtcTime, readIsoFields_isoChars t h1 h2, isoFieldsOf_inRange,
    isoFieldsOf_time, if_true, TimeClip, hclip, if_false]

/-! ## Claims on timestamps.js -/

theorem isoChars_truthy (t : Int) : truthy (.str (String.mk (isoChars t))) = true := by
  have h : String.mk (isoChars t) ≠ "" := by
    intro e
    have hd : (String.mk (isoChars t)).data = [] := by rw [e]
    simp [isoChars] at hd
  simp [truthy, h]

theorem parseISO_string (eng : Engine) (s : String) (h : truthy (.str s) = true) :
    parseISO eng (.str s) = .ok (some ⟨Date.parse eng s⟩) := by
  simp [parseISO, IsoArg.toVal, h, newDate, pure, Except.pure]

/-- Claim C4 (the code departs from it): `parseISO("not-a-date")` does not raise, and it
returns a `Date` object, on no engine `null`; where the engine knows no format for the
string that `Date` is the invalid date (time value `NaN`). -/
theorem parseISO_not_a_date :
    parseISO bareEngine (.str "not-a-date") = .ok (some ⟨none⟩)
      ∧ ∀ eng : Engine, parseISO eng (.str "not-a-date") ≠ .ok none := by
  constructor
  · rw [parseISO_string bareEngine "not-a-date" rfl]
    rfl
  · intro eng
    rw [parseISO_string eng "not-a-date" rfl]
    simp

/-- Claim C9: `parseISO` returns `null` for every falsy argument. -/
theorem parseISO_falsy (eng : Engine) (a : IsoArg) (h : truthy a.toVal = false) :
    parseISO eng a = .ok none := by
  simp [parseISO, h, pure, Except.pure]

/-- Witness for C9 at `null`. -/
theorem parseISO_falsy_witness : parseISO bareEngine .null = .ok none :=
  parseISO_falsy bareEngine .null rfl

/-- Claim C10: for every valid time value `t`, `parseISO` applied to the ISO rendering of
`t` returns a date whose ISO rendering is that same string. -/
theorem parseISO_toISOString_roundtrip (eng : Engine) (t : Int)
    (h1 : -maxTime ≤ t) (h2 : t ≤ maxTime) :
    JSDate.toISOString ⟨some t⟩ = .ok (String.mk (isoChars t))
      ∧ ∃ d, parseISO eng (.str (String.mk (isoChars t))) = .ok (some d)
          ∧ d.toISOString = .ok (String.mk (isoChars t)) := by
  refine ⟨rfl, ⟨some t⟩, ?_, rfl⟩
  rw [parseISO_string eng _ (isoChars_truthy t), parse_isoChars eng t h1 h2]

/-- Witness for C10 at the first instant of 2024. -/
theorem parseISO_toISOString_roundtrip_witness :
    JSDate.toISOString ⟨some 1704067200000⟩ = .ok "2024-01-01T00:00:00.000Z"
      ∧ ∃ d, parseISO bareEngine (.str "2024-01-01T00:00:00.000Z") = .ok (some d)
          ∧ d.toISOString = .ok "2024-01-01T00:00:00.000Z" :=
  parseISO_toISOString_roundtrip bareEngine 1704067200000 (by decide) (by decide)

/-! ## Lemmas on the clock and on merging -/

theorem nowISO_eq (c : Clock) :
    nowISO c = .ok (String.mk (isoChars (c 0).ms), c.advance 1) := rfl

theorem createTimestamps_eq (c : Clock) :
    createTimestamps c
      = .ok (.obj [("createdAt", .str (String.mk (isoChars (c 0).ms))),
          ("updatedAt", .str (String.mk (isoChars (c 1).ms)))], c.advance 2) := rfl

theorem updateTimestamp_eq (c : Clock) :
    updateTimestamp c
      = .ok (.obj [("updatedAt", .str (String.mk (isoChars (c 0).ms)))], c.advance 1) := rfl

theorem parseISO_reading (eng : Engine) (t : TimeValue) :
    parseISO eng (.str (String.mk (isoChars t.ms))) = .ok (some ⟨some t.ms⟩) := by
  rw [parseISO_string eng _ (isoChars_truthy t.ms),
    parse_isoChars eng t.ms t.inRange.1 t.inRange.2]

theorem lookup_setProp (props : List (String × JSVal)) (k k' : String) (v : JSVal) :
    (setProp props k v).lookup k' = if k' = k then some v else props.lookup k' := by
  induction props with
  | nil =>
    by_cases h : k' = k
    · simp [setProp, List.lookup, h]
    · have hb : (k' == k) = false := by simpa using h
      simp [setProp, List.lookup, h, hb]
  | cons kv rest ih =>
    obtain ⟨k0, v0⟩ := kv
    by_cases h0 : k0 = k
    · subst h0
      by_cases h : k' = k0
      · simp [setProp, List.lookup, h]
      · have hb : (k' == k0) = false := by simpa using h
        simp [setProp, List.lookup, h, hb]
    · have hb0 : (k0 == k) = false := by simpa using h0
      by_cases h : k' = k0
      · subst h
        simp [setProp, List.lookup, hb0, h0]
      · have hb : (k' == k0) = false := by simpa using h
        simp [setProp, List.lookup, hb0, hb, ih]

/-! ## Claims on the clock functions -/

/-- Claim C11: for every clock state `createTimestamps` returns the object with exactly
the fields `createdAt` and `updatedAt`, the ISO renderings of the first and the second
reading taken in the call, and `parseISO` applied to each returns the date of that
reading. -/
theorem createTimestamps_fields_parse (eng : Engine) (c : Clock) :
    ∃ createdAt updatedAt,
      createTimestamps c
          = .ok (.obj [("createdAt", .str createdAt), ("updatedAt", .str updatedAt)],
              c.advance 2)
        ∧ JSDate.toISOString ⟨some (c 0).ms⟩ = .ok createdAt
        ∧ JSDate.toISOString ⟨some (c 1).ms⟩ = .ok updatedAt
        ∧ parseISO eng (.str createdAt) = .ok (some ⟨some (c 0).ms⟩)
        ∧ parseISO eng (.str updatedAt) = .ok (some ⟨some (c 1).ms⟩) :=
  ⟨_, _, createTimestamps_eq c, rfl, rfl, parseISO_reading eng (c 0), parseISO_reading eng (c 1)⟩

/-- Claim C14: for every clock state `updateTimestamp` returns the object whose only field
is `updatedAt`, the ISO rendering of the reading taken in the call; it has no `createdAt`,
and merging it into an entity sets `updatedAt` and leaves every other field, `createdAt`
among them, as it was. -/
theorem updateTimestamp_only_updatedAt (c : Clock) (entity : List (String × JSVal))
    (k : String) (hk : k ≠ "updatedAt") :
    ∃ updatedAt,
      updateTimestamp c = .ok (.obj [("updatedAt", .str updatedAt)], c.advance 1)
        ∧ JSDate.toISOString ⟨some (c 0).ms⟩ = .ok updatedAt
        ∧ keysOf [("updatedAt", JSVal.str updatedAt)] = ["updatedAt"]
        ∧ field (.obj [("updatedAt", .str updatedAt)]) "createdAt" = none
        ∧ field (.obj (mergeProps entity [("updatedAt", .str updatedAt)])) k
            = field (.obj entity) k
        ∧ field (.obj (mergeProps entity [("updatedAt", .str updatedAt)])) "createdAt"
            = field (.obj entity) "createdAt"
        ∧ field (.obj (mergeProps entity [("updatedAt", .str updatedAt)])) "updatedAt"
            = some (.str updatedAt) := by
  refine ⟨_, updateTimestamp_eq c, rfl, rfl, rfl, ?_, ?_, ?_⟩
  · simp only [field, mergeProps, List.foldl, lookup_setProp, if_neg hk]
  · have h : ("createdAt" : String) ≠ "updatedAt" := by decide
    simp only [field, mergeProps, List.foldl, lookup_setProp, if_neg h]
  · simp only [field, mergeProps, List.foldl, lookup_setProp, if_true]

/-- Witness for C14: an entity with an id, a `createdAt` and an old `updatedAt`, read at
the key `id`. -/
theorem updateTimestamp_only_updatedAt_witness :
    ∃ updatedAt,
      updateTimestamp tickingClock
          = .ok (.obj [("updatedAt", .str updatedAt)], tickingClock.advance 1)
        ∧ JSDate.toISOString ⟨some (tickingClock 0).ms⟩ = .ok updatedAt
        ∧ keysOf [("updatedAt", JSVal.str updatedAt)] = ["updatedAt"]
        ∧ field (.obj [("updatedAt", .str updatedAt)]) "createdAt" = none
        ∧ field (.obj (mergeProps
              [("id", .num (.int 7)), ("createdAt", .str "2023-05-01T10:00:00.000Z"),
                ("updatedAt", .str "2023-05-01T10:00:00.000Z")]
              [("updatedAt", .str updatedAt)])) "id"
            = field (.obj
              [("id", .num (.int 7)), ("createdAt", .str "2023-05-01T10:00:00.000Z"),
                ("updatedAt", .str "2023-05-01T10:00:00.000Z")]) "id"
        ∧ field (.obj (mergeProps
              [("id", .num (.int 7)), ("createdAt", .str "2023-05-01T10:00:00.000Z"),
                ("updatedAt", .str "2023-05-01T10:00:00.000Z")]
              [("updatedAt", .str updatedAt)])) "createdAt"
            = field (.obj
              [("id", .num (.int 7)), ("createdAt", .str "2023-05-01T10:00:00.000Z"),
                ("updatedAt", .str "2023-05-01T10:00:00.000Z")]) "createdAt"
        ∧ field (.obj (mergeProps
              [("id", .num (.int 7)), ("createdAt", .str "2023-05-01T10:00:00.000Z"),
                ("updatedAt", .str "2023-05-01T10:00:00.000Z")]
              [("updatedAt", .str updatedAt)])) "updatedAt"
            = some (.str updatedAt) :=
  updateTimestamp_only_updatedAt tickingClock
    [("id", .num (.int 7)), ("createdAt", .str "2023-05-01T10:00:00.000Z"),
      ("updatedAt", .str "2023-05-01T10:00:00.000Z")] "id" (by decide)

/-- Claim C18: `createTimestamps` reads the clock twice, `createdAt` from the first reading
and `updatedAt` from the second; on a clock whose readings never decrease the instant in
`createdAt` is at most the instant in `updatedAt`, and when the clock did not advance
between the two readings the instants, and the two texts, are equal. -/
theorem createTimestamps_ordered (eng : Engine) (c : Clock)
    (hmono : ∀ n, (c n).ms ≤ (c (n + 1)).ms) :
    ∃ createdAt updatedAt t1 t2,
      createTimestamps c
          = .ok (.obj [("createdAt", .str createdAt), ("updatedAt", .str updatedAt)],
              c.advance 2)
        ∧ t1 = (c 0).ms ∧ t2 = (c 1).ms
        ∧ Date.parse eng createdAt = some t1 ∧ Date.parse eng updatedAt = some t2
        ∧ t1 ≤ t2
        ∧ ((c 0).ms = (c 1).ms → t1 = t2 ∧ createdAt = updatedAt) := by
  refine ⟨_, _, (c 0).ms, (c 1).ms, createTimestamps_eq c, rfl, rfl,
    parse_isoChars eng _ (c 0).inRange.1 (c 0).inRange.2,
    parse_isoChars eng _ (c 1).inRange.1 (c 1).inRange.2, hmono 0, ?_⟩
  intro h
  exact ⟨h, by rw [h]⟩

/-- Witness for C18 on the clock that gains a millisecond with every reading. -/
theorem createTimestamps_ordered_witness :
    ∃ createdAt updatedAt t1 t2,
      createTimestamps tickingClock
          = .ok (.obj [("createdAt", .str createdAt), ("updatedAt", .str updatedAt)],
              tickingClock.advance 2)
        ∧ t1 = (tickingClock 0).ms ∧ t2 = (tickingClock 1).ms
        ∧ Date.parse bareEngine createdAt = some t1
        ∧ Date.parse bareEngine updatedAt = some t2
        ∧ t1 ≤ t2
        ∧ ((tickingClock 0).ms = (tickingClock 1).ms → t1 = t2 ∧ createdAt = updatedAt) :=
  createTimestamps_ordered bareEngine tickingClock (by
    intro n
    show (1704067200000 : Int) + ((min n 1000 : Nat) : Int)
      ≤ 1704067200000 + ((min (n + 1) 1000 : Nat) : Int)
    omega)

/-! ## Lemmas on the records the constructor builds -/

theorem constructor_message_name (y : JSVal) :
    ∃ message name stack code,
      SerializedError.constructor y = .ok (.serialized message name stack code)
        ∧ message ≠ .null ∧ message ≠ .undefined ∧ name ≠ .null ∧ name ≠ .undefined := by
  have hm := truthy_ne_null (truthy_fieldOrDefault y "message" (.str "Unknown error") rfl)
  have hn := truthy_ne_null (truthy_fieldOrDefault y "name" (.str "Error") rfl)
  exact ⟨_, _, _, _, constructor_eq y, hm.1, hm.2, hn.1, hn.2⟩

theorem normalizeError_truthy_constructor (eng : Engine) (x : JSVal) (h : truthy x = true) :
    ∃ y, normalizeError eng x = SerializedError.constructor y := by
  by_cases hp : isPrimitive x = true
  · obtain ⟨msg, hm, _⟩ := jsString_truthy x hp h
    exact ⟨newError eng msg, normalizeError_primitive eng x hp h msg hm⟩
  · refine ⟨x, ?_⟩
    cases x <;> simp_all [normalizeError, isPrimitive, instanceofError, typeof, truthy,
      serializeError, instanceofSerializedError]

theorem fieldOrDefault_truthy_or_default (x : JSVal) (k : String) (dflt : JSVal) :
    truthy (fieldOrDefault x k dflt) = true ∨ fieldOrDefault x k dflt = dflt := by
  unfold fieldOrDefault
  cases field x k with
  | none => exact Or.inr rfl
  | some v =>
    by_cases hv : truthy v = true
    · simp [hv]
    · simp [hv]

theorem keep_or_default (v dflt : JSVal) (h : truthy v = true ∨ v = dflt) :
    (if truthy v = true then v else dflt) = v := by
  rcases h with h | h
  · simp [h]
  · by_cases ht : truthy v = true
    · simp [ht]
    · simp [ht, h]

theorem specRecord_serialized (message name stack code : JSVal)
    (hm : truthy message = true ∨ message = .str "Unknown error")
    (hn : truthy name = true ∨ name = .str "Error")
    (hs : truthy stack = true ∨ stack = .str "")
    (hc : truthy code = true ∨ code = .null) :
    specRecord (.serialized message name stack code) = .serialized message name stack code
      ∧ specRecord (.obj [("message", message), ("name", name), ("stack", stack),
          ("code", code)]) = .serialized message name stack code := by
  have e1 : ∀ k d, fieldOrDefault (.obj [("message", message), ("name", name),
      ("stack", stack), ("code", code)]) k d
        = fieldOrDefault (.serialized message name stack code) k d := by
    intro k d
    unfold fieldOrDefault field
    simp only [List.lookup]
    by_cases h1 : k = "message"
    · subst h1; rfl
    · by_cases h2 : k = "name"
      · subst h2; rfl
      · by_cases h3 : k = "stack"
        · subst h3; rfl
        · by_cases h4 : k = "code"
          · subst h4; rfl
          · have b1 : (k == "message") = false := by simpa using h1
            have b2 : (k == "name") = false := by simpa using h2
            have b3 : (k == "stack") = false := by simpa using h3
            have b4 : (k == "code") = false := by simpa using h4
            simp [b1, b2, b3, b4]
  have e2 : specRecord (.serialized message name stack code)
      = .serialized message name stack code := by
    show JSVal.serialized (if truthy message = true then message else _)
      (if truthy name = true then name else _) (if truthy stack = true then stack else _)
      (if truthy code = true then code else _) = _
    rw [keep_or_default _ _ hm, keep_or_default _ _ hn, keep_or_default _ _ hs,
      keep_or_default _ _ hc]
  refine ⟨e2, ?_⟩
  rw [← e2]
  simp only [specRecord, e1]

theorem specRecord_fixed (x : JSVal) :
    specRecord (specRecord x) = specRecord x
      ∧ SerializedError.toJSON (specRecord x)
          = .ok (.obj [("message", fieldOrDefault x "message" (.str "Unknown error")),
              ("name", fieldOrDefault x "name" (.str "Error")),
              ("stack", fieldOrDefault x "stack" (.str "")),
              ("code", fieldOrDefault x "code" .null)])
      ∧ specRecord (.obj [("message", fieldOrDefault x "message" (.str "Unknown error")),
              ("name", fieldOrDefault x "name" (.str "Error")),
              ("stack", fieldOrDefault x "stack" (.str "")),
              ("code", fieldOrDefault x "code" .null)]) = specRecord x := by
  have h := specRecord_serialized _ _ _ _
    (fieldOrDefault_truthy_or_default x "message" (.str "Unknown error"))
    (fieldOrDefault_truthy_or_default x "name" (.str "Error"))
    (fieldOrDefault_truthy_or_default x "stack" (.str ""))
    (fieldOrDefault_truthy_or_default x "code" .null)
  exact ⟨h.1, rfl, h.2⟩

theorem normalizeError_specRecord (eng : Engine) (x : JSVal) :
    normalizeError eng (specRecord x) = .ok (specRecord x) := by
  have h : normalizeError eng (specRecord x) = SerializedError.constructor (specRecord x) :=
    rfl
  rw [h, constructor_eq, (specRecord_fixed x).1]

theorem toStringVal_primitive (v : JSVal) (hp : isPrimitive v = true) :
    ∃ s, jsString v = .ok s ∧ toStringVal v = .ok s := by
  cases v with
  | undefined => exact ⟨_, rfl, rfl⟩
  | null => exact ⟨_, rfl, rfl⟩
  | bool b => cases b <;> exact ⟨_, rfl, rfl⟩
  | num n => exact ⟨_, rfl, rfl⟩
  | str s => exact ⟨_, rfl, rfl⟩
  | obj _ => simp [isPrimitive] at hp
  | error _ _ => simp [isPrimitive] at hp
  | serialized _ _ _ _ => simp [isPrimitive] at hp

theorem toString_of_conversions (message name stack code : JSVal) (n m : String)
    (hn : toStringVal name = .ok n) (hm : toStringVal message = .ok m) :
    SerializedError.toString (.serialized message name stack code) = .ok (n ++ ": " ++ m) := by
  have h1 : getProp (.serialized message name stack code) "name" = .ok name := rfl
  have h2 : getProp (.serialized message name stack code) "message" = .ok message := rfl
  simp only [SerializedError.toString, h1, h2, hn, hm, bind, Except.bind, pure, Except.pure]

theorem normalizeError_text (eng : Engine) (s : String) (ht : truthy (.str s) = true) :
    normalizeError eng (.str s)
      = .ok (.serialized (.str s) (.str "Error") (.str ((eng.errorStack s).getD "")) .null) := by
  rw [normalizeError_primitive eng (.str s) rfl ht s rfl, constructor_eq,
    specRecord_newError eng s ht]

/-! ## Claims on the records and their methods -/

/-- Counterexample to C12 as stated: the record the constructor builds from an object
whose `message` is an object with a `toString` property that is not a function has no
string rendering; `toString` raises a `TypeError` on it. -/
theorem toString_raises_on_unconvertible_message :
    SerializedError.constructor (.obj [("message", .obj [("toString", .num (.int 1))])])
        = .ok (.serialized (.obj [("toString", .num (.int 1))]) (.str "Error") (.str "") .null)
      ∧ SerializedError.toString
          (.serialized (.obj [("toString", .num (.int 1))]) (.str "Error") (.str "") .null)
        = .error .typeError :=
  ⟨rfl, rfl⟩

/-- Claim C12, amended: when `name` and `message` are text the rendering of a
`SerializedError` is the name, a colon and one space, the message; for other field values
the rendering is built in the same way from the texts they convert to, whenever both
conversions return. -/
theorem toString_renders (message name stack code : JSVal) (a b : String) :
    SerializedError.toString (.serialized (.str b) (.str a) stack code) = .ok (a ++ ": " ++ b)
      ∧ (∀ n m, toStringVal name = .ok n → toStringVal message = .ok m →
          SerializedError.toString (.serialized message name stack code)
            = .ok (n ++ ": " ++ m)) := by
  refine ⟨toString_of_conversions _ _ _ _ a b rfl rfl, ?_⟩
  intro n m hn hm
  exact toString_of_conversions _ _ _ _ n m hn hm

/-- Witness for C12 (amended): the name `TypeError` with the message `bad arg`, and a
record whose message is the boolean `true`. -/
theorem toString_renders_witness :
    SerializedError.toString
        (.serialized (.str "bad arg") (.str "TypeError") (.str "") .null)
        = .ok "TypeError: bad arg"
      ∧ SerializedError.toString
          (.serialized (.bool true) (.str "Error") (.str "") .null) = .ok "Error: true" :=
  ⟨(toString_renders (.bool true) (.str "Error") (.str "") .null "TypeError" "bad arg").1,
    (toString_renders (.bool true) (.str "Error") (.str "") .null "TypeError" "bad arg").2
      "Error" "true" rfl rfl⟩

/-- Claim C13: the structured-data view of a `SerializedError` is the plain object with
exactly the keys `message`, `name`, `stack` and `code`, each holding the field of that
name. -/
theorem toJSON_four_fields (message name stack code : JSVal) :
    SerializedError.toJSON (.serialized message name stack code)
        = .ok (.obj [("message", message), ("name", name), ("stack", stack), ("code", code)])
      ∧ keysOf [("message", message), ("name", name), ("stack", stack), ("code", code)]
        = ["message", "name", "stack", "code"]
      ∧ field (.obj [("message", message), ("name", name), ("stack", stack), ("code", code)])
          "message" = field (.serialized message name stack code) "message"
      ∧ field (.obj [("message", message), ("name", name), ("stack", stack), ("code", code)])
          "name" = field (.serialized message name stack code) "name"
      ∧ field (.obj [("message", message), ("name", name), ("stack", stack), ("code", code)])
          "stack" = field (.serialized message name stack code) "stack"
      ∧ field (.obj [("message", message), ("name", name), ("stack", stack), ("code", code)])
          "code" = field (.serialized message name stack code) "code" :=
  ⟨rfl, rfl, rfl, rfl, rfl, rfl⟩

/-- Claim C16: the record `s` the constructor builds from any input is returned with the
same four fields by `normalizeError(s)` and by `serializeError(s.toJSON())`; hence for a
truthy `x`, `normalizeError` applied to `normalizeError(x)` gives the same fields again. -/
theorem constructor_fixed_point (eng : Engine) (x : JSVal) :
    (∃ s, SerializedError.constructor x = .ok s
        ∧ normalizeError eng s = .ok s
        ∧ ∃ j, SerializedError.toJSON s = .ok j ∧ serializeError j = .ok s)
      ∧ (truthy x = true →
          ∃ y, normalizeError eng x = .ok y ∧ normalizeError eng y = .ok y) := by
  refine ⟨⟨specRecord x, constructor_eq x, normalizeError_specRecord eng x, ?_⟩, ?_⟩
  · refine ⟨_, (specRecord_fixed x).2.1, ?_⟩
    have h : ∀ props, serializeError (.obj props) = SerializedError.constructor (.obj props) :=
      fun _ => rfl
    rw [h, constructor_eq, (specRecord_fixed x).2.2]
  · intro hx
    obtain ⟨y, hy⟩ := normalizeError_truthy_constructor eng x hx
    exact ⟨specRecord y, by rw [hy, constructor_eq], normalizeError_specRecord eng y⟩

/-- Witness for C16 at the text `boom`, on an engine that attaches stack traces. -/
theorem constructor_fixed_point_witness :
    (∃ s, SerializedError.constructor (.str "boom") = .ok s
        ∧ normalizeError tracingEngine s = .ok s
        ∧ ∃ j, SerializedError.toJSON s = .ok j ∧ serializeError j = .ok s)
      ∧ ∃ y, normalizeError tracingEngine (.str "boom") = .ok y
          ∧ normalizeError tracingEngine y = .ok y :=
  ⟨(constructor_fixed_point tracingEngine (.str "boom")).1,
    (constructor_fixed_point tracingEngine (.str "boom")).2 rfl⟩

/-- Claim C17: `serializeError` gives the all-defaults record for every primitive; so for
a non-empty text other than `Unknown error` its `message` differs from the `message` of
`normalizeError`, which is the text. -/
theorem serializeError_primitive_defaults (eng : Engine) (p : JSVal)
    (hp : isPrimitive p = true) (s : String) (hs : s ≠ "") (hs2 : s ≠ "Unknown error") :
    serializeError p = .ok defaultRecord
      ∧ ∃ a b, serializeError (.str s) = .ok a ∧ normalizeError eng (.str s) = .ok b
          ∧ field a "message" = some (.str "Unknown error")
          ∧ field b "message" = some (.str s)
          ∧ field a "message" ≠ field b "message" := by
  have hdef : ∀ q, isPrimitive q = true → serializeError q = .ok defaultRecord := by
    intro q hq
    cases q <;> first | rfl | simp [isPrimitive] at hq
  have ht : truthy (.str s) = true := by simp [truthy, hs]
  refine ⟨hdef p hp, defaultRecord, _, hdef (.str s) rfl, normalizeError_text eng s ht,
    rfl, rfl, ?_⟩
  show some (JSVal.str "Unknown error") ≠ some (JSVal.str s)
  intro h
  injection h with h
  injection h with h
  exact hs2 h.symm

/-- Witness for C17 at the number 5 and the text `boom`. -/
theorem serializeError_primitive_defaults_witness :
    serializeError (.num (.int 5)) = .ok defaultRecord
      ∧ ∃ a b, serializeError (.str "boom") = .ok a
          ∧ normalizeError tracingEngine (.str "boom") = .ok b
          ∧ field a "message" = some (.str "Unknown error")
          ∧ field b "message" = some (.str "boom")
          ∧ field a "message" ≠ field b "message" :=
  serializeError_primitive_defaults tracingEngine (.num (.int 5)) rfl "boom"
    (by decide) (by decide)

/-! ## Lemmas on errors.js over every kind of input -/

theorem truthy_jsOr (a dflt : JSVal) (h : truthy dflt = true) : truthy (jsOr a dflt) = true := by
  unfold jsOr
  by_cases ha : truthy a = true
  · simp [ha]
  · simp [ha, h]

theorem constructorAny_of_reads (x : JSAny) (vm vn vs vc : JSVal)
    (hm : x.optChain "message" = .ok vm) (hn : x.optChain "name" = .ok vn)
    (hs : x.optChain "stack" = .ok vs) (hc : x.optChain "code" = .ok vc) :
    JSAny.SerializedError.constructor x
      = .ok (.serialized (jsOr vm (.str "Unknown error")) (jsOr vn (.str "Error"))
          (jsOr vs (.str "")) (jsOr vc .null)) := by
  simp only [JSAny.SerializedError.constructor, hm, hn, hs, hc, bind, Except.bind, pure,
    Except.pure]

theorem constructorAny_result (y : JSAny) (r : JSVal)
    (h : JSAny.SerializedError.constructor y = .ok r) :
    ∃ m n s c, r = .serialized m n s c ∧ truthy m = true ∧ truthy n = true := by
  cases hm : y.optChain "message" with
  | error e => simp [JSAny.SerializedError.constructor, hm, bind, Except.bind] at h
  | ok vm =>
    cases hn : y.optChain "name" with
    | error e => simp [JSAny.SerializedError.constructor, hm, hn, bind, Except.bind] at h
    | ok vn =>
      cases hs : y.optChain "stack" with
      | error e =>
        simp [JSAny.SerializedError.constructor, hm, hn, hs, bind, Except.bind] at h
      | ok vs =>
        cases hc : y.optChain "code" with
        | error e =>
          simp [JSAny.SerializedError.constructor, hm, hn, hs, hc, bind, Except.bind] at h
        | ok vc =>
          rw [constructorAny_of_reads y vm vn vs vc hm hn hs hc] at h
          exact ⟨_, _, _, _, (Except.ok.inj h).symm, truthy_jsOr _ _ rfl, truthy_jsOr _ _ rfl⟩

theorem constructorAny_clean (x : JSAny)
    (hread : ∀ k, k ∈ fieldKeys → ∃ v, x.optChain k = .ok v) :
    ∃ m n s c, JSAny.SerializedError.constructor x = .ok (.serialized m n s c)
      ∧ truthy m = true ∧ truthy n = true := by
  obtain ⟨vm, hm⟩ := hread "message" (by decide)
  obtain ⟨vn, hn⟩ := hread "name" (by decide)
  obtain ⟨vs, hs⟩ := hread "stack" (by decide)
  obtain ⟨vc, hc⟩ := hread "code" (by decide)
  exact ⟨_, _, _, _, constructorAny_of_reads x vm vn vs vc hm hn hs hc,
    truthy_jsOr _ _ rfl, truthy_jsOr _ _ rfl⟩

theorem value_reads_clean (v : JSVal) (k : String) : ∃ w, (JSAny.value v).optChain k = .ok w :=
  ⟨_, optChain_eq v k⟩

theorem constructorAny_value (v : JSVal) :
    JSAny.SerializedError.constructor (.value v) = SerializedError.constructor v := rfl

theorem serializeErrorAny_value (v : JSVal) :
    JSAny.serializeError (.value v) = (serializeError v).map JSAny.value := by
  unfold JSAny.serializeError serializeError
  by_cases hs : instanceofSerializedError v = true
  · simp [JSAny.instanceofSerializedError, hs, pure, Except.pure, Except.map]
  · simp [JSAny.instanceofSerializedError, hs, constructorAny_value]

theorem newError_record (eng : Engine) (msg : String) :
    ∃ m n s c, SerializedError.constructor (newError eng msg) = .ok (.serialized m n s c)
      ∧ truthy m = true ∧ truthy n = true := by
  obtain ⟨m, n, s, c, hr, hm, hn⟩ := constructorAny_result (.value (newError eng msg))
    (specRecord (newError eng msg)) (constructor_eq (newError eng msg))
  exact ⟨m, n, s, c, by rw [constructor_eq, hr], hm, hn⟩

theorem normalizeErrorAny_bigint (eng : Engine) (i : Int)
    (ht : (JSAny.bigint i).truthy = true) :
    JSAny.normalizeError eng (.bigint i)
      = (SerializedError.constructor (newError eng (toString i))).map JSAny.value := by
  have hc := constructorAny_value (newError eng (toString i))
  simp [JSAny.normalizeError, ht, JSAny.instanceofError, JSAny.typeof, JSAny.jsString, hc]

theorem normalizeErrorAny_value (eng : Engine) (v : JSVal) :
    JSAny.normalizeError eng (.value v) = (normalizeError eng v).map JSAny.value := by
  have hc : ∀ w, JSAny.SerializedError.constructor (.value w) = SerializedError.constructor w :=
    fun _ => rfl
  unfold JSAny.normalizeError normalizeError
  simp only [JSAny.truthy, JSAny.instanceofError, JSAny.typeof, JSAny.jsString,
    JSAny.serializeError, JSAny.instanceofSerializedError, serializeError, hc]
  by_cases ht : truthy v = true
  · by_cases he : instanceofError v = true
    · by_cases hs : instanceofSerializedError v = true
      · simp [ht, he, hs, pure, Except.pure, Except.map]
      · simp [ht, he, hs]
    · by_cases ho : (typeof v == "object") = true
      · simp [ht, he, ho]
      · cases hj : jsString v with
        | error e => simp [ht, he, ho, hj, bind, Except.bind, Except.map]
        | ok msg => simp [ht, he, ho, hj, bind, Except.bind]
  · simp [ht, pure, Except.pure, Except.map]

/-! ## Claim C3 over every primitive -/

theorem newError_text_record (eng : Engine) (msg : String) (h : msg ≠ "") :
    (SerializedError.constructor (newError eng msg)).map JSAny.value
      = .ok (.value (.serialized (.str msg) (.str "Error")
          (.str ((eng.errorStack msg).getD "")) .null)) := by
  have ht : truthy (.str msg) = true := by simp [truthy, h]
  rw [constructor_eq, specRecord_newError eng msg ht]
  rfl

theorem symbol_text_ne_empty (description : Option String) :
    "Symbol(" ++ description.getD "" ++ ")" ≠ "" := by
  apply string_ne_empty_of_data
  simp [String.data_append]

/-- Claim C3, amended: for a truthy primitive `p` (text, a Number, `true`, and likewise a
Symbol or a BigInt) `normalizeError` returns the record with `message` the text
`String(p)`, `name` `"Error"`, `code` `null`, and `stack` the stack text the engine
attached to the `Error` made for `p` (`""` when it attached none). -/
theorem normalizeError_truthy_primitive (eng : Engine) (p : JSAny)
    (hp : p.isPrimitive = true) (ht : p.truthy = true) :
    ∃ msg, p.jsString = .ok msg
      ∧ JSAny.normalizeError eng p
          = .ok (.value (.serialized (.str msg) (.str "Error")
              (.str ((eng.errorStack msg).getD "")) .null)) := by
  cases p with
  | value v =>
    obtain ⟨msg, hm, hn⟩ := normalizeError_primitive_record eng v hp ht
    refine ⟨msg, hm, ?_⟩
    rw [normalizeErrorAny_value, hn]
    rfl
  | symbol description =>
    refine ⟨_, rfl, ?_⟩
    have h : JSAny.normalizeError eng (.symbol description)
        = (SerializedError.constructor
            (newError eng ("Symbol(" ++ description.getD "" ++ ")"))).map JSAny.value := rfl
    rw [h, newError_text_record eng _ (symbol_text_ne_empty description)]
  | bigint i =>
    refine ⟨_, rfl, ?_⟩
    rw [normalizeErrorAny_bigint eng i ht,
      newError_text_record eng _ (int_toString_ne_empty i)]
  | func _ _ => simp [JSAny.isPrimitive] at hp
  | accessors _ => simp [JSAny.isPrimitive] at hp

/-- Witness for C3 (amended) at `"boom"` on an engine that attaches no stack, at the
number `1e21`, and at a Symbol. -/
theorem normalizeError_truthy_primitive_witness :
    JSAny.normalizeError bareEngine (.value (.str "boom"))
        = .ok (.value (.serialized (.str "boom") (.str "Error") (.str "") .null))
      ∧ (∃ msg, (JSAny.value (.num (.int 1000000000000000000000))).jsString = .ok msg
        ∧ JSAny.normalizeError bareEngine (.value (.num (.int 1000000000000000000000)))
            = .ok (.value (.serialized (.str msg) (.str "Error")
                (.str ((bareEngine.errorStack msg).getD "")) .null)))
      ∧ ∃ msg, (JSAny.symbol (some "tag")).jsString = .ok msg
        ∧ JSAny.normalizeError bareEngine (.symbol (some "tag"))
            = .ok (.value (.serialized (.str msg) (.str "Error")
                (.str ((bareEngine.errorStack msg).getD "")) .null)) :=
  ⟨by
      obtain ⟨msg, h1, h2⟩ :=
        normalizeError_truthy_primitive bareEngine (.value (.str "boom")) rfl rfl
      have hm : msg = "boom" := (Except.ok.inj h1).symm
      subst hm
      exact h2,
    normalizeError_truthy_primitive bareEngine
      (.value (.num (.int 1000000000000000000000))) rfl rfl,
    normalizeError_truthy_primitive bareEngine (.symbol (some "tag")) rfl rfl⟩

/-! ## Claims on errors.js over every kind of input -/

/-- Counterexample to C1 as stated: a `SerializedError` whose fields were set to `null`
after its construction is returned as it is, with a `null` message and name; and on an
object whose `message` is an accessor with a throwing getter `serializeError` raises. -/
theorem serializeError_null_fields_and_raise :
    JSAny.serializeError (.value (.serialized .null .null .null .null))
        = .ok (.value (.serialized .null .null .null .null))
      ∧ JSAny.serializeError throwingMessage = .error .typeError :=
  ⟨rfl, rfl⟩

/-- Claim C1, amended: for every input whose properties `message`, `name`, `stack` and
`code` are read without raising and which, when it is a `SerializedError`, is as a run of
the constructor left it, `serializeError` returns without raising a `SerializedError`
whose `message` and `name` are neither `null` nor `undefined`. -/
theorem serializeError_clean_reads (x : JSAny)
    (hread : ∀ k, k ∈ fieldKeys → ∃ v, x.optChain k = .ok v)
    (hx : ∀ r, x = .value r → instanceofSerializedError r = true →
      ∃ y, JSAny.SerializedError.constructor y = .ok r) :
    ∃ message name stack code,
      JSAny.serializeError x = .ok (.value (.serialized message name stack code))
        ∧ message ≠ .null ∧ message ≠ .undefined ∧ name ≠ .null ∧ name ≠ .undefined := by
  by_cases hs : x.instanceofSerializedError = true
  · cases x with
    | value r =>
      obtain ⟨y, hy⟩ := hx r rfl hs
      obtain ⟨m, n, s, c, hr, hm, hn⟩ := constructorAny_result y r hy
      refine ⟨m, n, s, c, ?_, (truthy_ne_null hm).1, (truthy_ne_null hm).2,
        (truthy_ne_null hn).1, (truthy_ne_null hn).2⟩
      subst hr
      rfl
    | symbol _ => simp [JSAny.instanceofSerializedError] at hs
    | bigint _ => simp [JSAny.instanceofSerializedError] at hs
    | func _ _ => simp [JSAny.instanceofSerializedError] at hs
    | accessors _ => simp [JSAny.instanceofSerializedError] at hs
  · obtain ⟨m, n, s, c, hc, hm, hn⟩ := constructorAny_clean x hread
    refine ⟨m, n, s, c, ?_, (truthy_ne_null hm).1, (truthy_ne_null hm).2,
      (truthy_ne_null hn).1, (truthy_ne_null hn).2⟩
    simp [JSAny.serializeError, hs, hc, Except.map]

/-- Witness for C1 (amended): the record the constructor builds from `null`, and an object
whose `message` is an accessor with a getter that returns. -/
theorem serializeError_clean_reads_witness :
    (∃ message name stack code,
      JSAny.serializeError
          (.value (.serialized (.str "Unknown error") (.str "Error") (.str "") .null))
          = .ok (.value (.serialized message name stack code))
        ∧ message ≠ .null ∧ message ≠ .undefined ∧ name ≠ .null ∧ name ≠ .undefined)
      ∧ ∃ message name stack code,
        JSAny.serializeError (.accessors [("message", .getter (.ok (.str "late")))])
            = .ok (.value (.serialized message name stack code))
          ∧ message ≠ .null ∧ message ≠ .undefined ∧ name ≠ .null ∧ name ≠ .undefined :=
  ⟨serializeError_clean_reads
      (.value (.serialized (.str "Unknown error") (.str "Error") (.str "") .null))
      (fun k _ => value_reads_clean _ k)
      (fun r h _ => ⟨.value .null, by rw [← JSAny.value.inj h]; rfl⟩),
    serializeError_clean_reads (.accessors [("message", .getter (.ok (.str "late")))])
      (fun k hk => by
        simp only [fieldKeys, List.mem_cons, List.mem_singleton, List.not_mem_nil,
          or_false] at hk
        rcases hk with h | h | h | h <;> subst h <;> exact ⟨_, rfl⟩)
      (fun r h _ => by cases h)⟩

/-- Counterexample to C7 as stated: a function is an object that is not an `Error`, and
`normalizeError` does not wrap it directly: it takes the source text of the function as
the message of a fresh `Error`, where wrapping it directly would read its `name`. -/
theorem normalizeError_function_not_wrapped :
    sampleFunction.instanceofError = false
      ∧ JSAny.normalizeError bareEngine sampleFunction
        = .ok (.value (.serialized (.str "function f() {}") (.str "Error") (.str "") .null))
      ∧ (JSAny.SerializedError.constructor sampleFunction).map JSAny.value
        = .ok (.value (.serialized (.str "Unknown error") (.str "f") (.str "") .null))
      ∧ JSAny.normalizeError bareEngine sampleFunction
        ≠ (JSAny.SerializedError.constructor sampleFunction).map JSAny.value := by
  refine ⟨rfl, rfl, rfl, ?_⟩
  have h1 : JSAny.normalizeError bareEngine sampleFunction
      = .ok (.value (.serialized (.str "function f() {}") (.str "Error") (.str "") .null)) :=
    rfl
  have h2 : (JSAny.SerializedError.constructor sampleFunction).map JSAny.value
      = .ok (.value (.serialized (.str "Unknown error") (.str "f") (.str "") .null)) := rfl
  rw [h1, h2]
  simp

/-- Claim C7, amended: for every object `o` that is not an `Error` instance and has
`typeof o === "object"`, `normalizeError` returns what the constructor builds from `o`
itself; for an object with data properties that is the record whose four fields are the
fields of `o` when truthy and the defaults otherwise. -/
theorem normalizeError_typeof_object (eng : Engine) (o : JSAny)
    (hty : o.typeof = "object") (ht : o.truthy = true) (he : o.instanceofError = false) :
    JSAny.normalizeError eng o = (JSAny.SerializedError.constructor o).map JSAny.value
      ∧ ∀ v, o = .value v → normalizeError eng v = .ok (specRecord v) := by
  constructor
  · simp [JSAny.normalizeError, ht, he, hty]
  · intro v hv
    subst hv
    have ht2 : truthy v = true := ht
    have he2 : instanceofError v = false := he
    have hty2 : typeof v = "object" := hty
    simp [normalizeError, ht2, he2, hty2, constructor_eq]

/-- Witness for C7 (amended) at the object with `message: "x"` and `code: 42`. -/
theorem normalizeError_typeof_object_witness :
    JSAny.normalizeError bareEngine
        (.value (.obj [("message", .str "x"), ("code", .num (.int 42))]))
        = (JSAny.SerializedError.constructor
            (.value (.obj [("message", .str "x"), ("code", .num (.int 42))]))).map JSAny.value
      ∧ normalizeError bareEngine (.obj [("message", .str "x"), ("code", .num (.int 42))])
        = .ok (.serialized (.str "x") (.str "Error") (.str "") (.num (.int 42))) :=
  ⟨(normalizeError_typeof_object bareEngine
      (.value (.obj [("message", .str "x"), ("code", .num (.int 42))])) rfl rfl rfl).1,
    (normalizeError_typeof_object bareEngine
      (.value (.obj [("message", .str "x"), ("code", .num (.int 42))])) rfl rfl rfl).2 _ rfl⟩

/-- Counterexample to C15 as stated: an object whose `message` is an accessor with a
throwing getter is truthy, and `normalizeError` raises on it, on every engine. -/
theorem normalizeError_raises_on_throwing_getter :
    throwingMessage.truthy = true
      ∧ ∀ eng : Engine, JSAny.normalizeError eng throwingMessage = .error .typeError :=
  ⟨rfl, fun _ => rfl⟩

/-- Claim C15, amended: for every truthy input whose properties `message`, `name`, `stack`
and `code` are read without raising, `normalizeError` returns without raising a
`SerializedError` (so not `null`) whose `message` and `name` are neither `null` nor
`undefined`. -/
theorem normalizeError_truthy_clean_reads (eng : Engine) (x : JSAny)
    (ht : x.truthy = true) (hread : ∀ k, k ∈ fieldKeys → ∃ v, x.optChain k = .ok v) :
    ∃ message name stack code,
      JSAny.normalizeError eng x = .ok (.value (.serialized message name stack code))
        ∧ JSAny.normalizeError eng x ≠ .ok (.value .null)
        ∧ message ≠ .null ∧ message ≠ .undefined ∧ name ≠ .null ∧ name ≠ .undefined := by
  have key : ∀ m n s c, truthy m = true → truthy n = true →
      JSAny.normalizeError eng x = .ok (.value (.serialized m n s c)) →
      ∃ message name stack code,
        JSAny.normalizeError eng x = .ok (.value (.serialized message name stack code))
          ∧ JSAny.normalizeError eng x ≠ .ok (.value .null)
          ∧ message ≠ .null ∧ message ≠ .undefined ∧ name ≠ .null ∧ name ≠ .undefined := by
    intro m n s c hm hn h
    refine ⟨m, n, s, c, h, ?_, (truthy_ne_null hm).1, (truthy_ne_null hm).2,
      (truthy_ne_null hn).1, (truthy_ne_null hn).2⟩
    rw [h]
    simp
  cases x with
  | value v =>
    obtain ⟨y, hy⟩ := normalizeError_truthy_constructor eng v ht
    have hc := constructorAny_result (.value y) (specRecord y) (constructor_eq y)
    obtain ⟨m, n, s, c, hr, hm, hn⟩ := hc
    refine key m n s c hm hn ?_
    rw [normalizeErrorAny_value, hy, constructor_eq, hr]
    rfl
  | symbol description =>
    obtain ⟨m, n, s, c, hr, hm, hn⟩ := newError_record eng ("Symbol(" ++ description.getD "" ++ ")")
    refine key m n s c hm hn ?_
    have h : JSAny.normalizeError eng (.symbol description)
        = (SerializedError.constructor
            (newError eng ("Symbol(" ++ description.getD "" ++ ")"))).map JSAny.value := rfl
    rw [h, hr]
    rfl
  | bigint i =>
    obtain ⟨m, n, s, c, hr, hm, hn⟩ := newError_record eng (toString i)
    refine key m n s c hm hn ?_
    have h : JSAny.normalizeError eng (.bigint i)
        = (SerializedError.constructor (newError eng (toString i))).map JSAny.value :=
      normalizeErrorAny_bigint eng i ht
    rw [h, hr]
    rfl
  | func source props =>
    obtain ⟨m, n, s, c, hr, hm, hn⟩ := newError_record eng source
    refine key m n s c hm hn ?_
    have h : JSAny.normalizeError eng (.func source props)
        = (SerializedError.constructor (newError eng source)).map JSAny.value := rfl
    rw [h, hr]
    rfl
  | accessors props =>
    obtain ⟨m, n, s, c, hc, hm, hn⟩ := constructorAny_clean _ hread
    refine key m n s c hm hn ?_
    have h : JSAny.normalizeError eng (.accessors props)
        = (JSAny.SerializedError.constructor (.accessors props)).map JSAny.value := rfl
    rw [h, hc]
    rfl

/-- Witness for C15 (amended) at the number 42 and at a function. -/
theorem normalizeError_truthy_clean_reads_witness :
    (∃ message name stack code,
      JSAny.normalizeError bareEngine (.value (.num (.int 42)))
          = .ok (.value (.serialized message name stack code))
        ∧ JSAny.normalizeError bareEngine (.value (.num (.int 42))) ≠ .ok (.value .null)
        ∧ message ≠ .null ∧ message ≠ .undefined ∧ name ≠ .null ∧ name ≠ .undefined)
      ∧ ∃ message name stack code,
        JSAny.normalizeError bareEngine sampleFunction
            = .ok (.value (.serialized message name stack code))
          ∧ JSAny.normalizeError bareEngine sampleFunction ≠ .ok (.value .null)
          ∧ message ≠ .null ∧ message ≠ .undefined ∧ name ≠ .null ∧ name ≠ .undefined :=
  ⟨normalizeError_truthy_clean_reads bareEngine (.value (.num (.int 42))) rfl
      (fun k _ => value_reads_clean _ k),
    normalizeError_truthy_clean_reads bareEngine sampleFunction rfl
      (fun k hk => by
        simp only [fieldKeys, List.mem_cons, List.mem_singleton, List.not_mem_nil,
          or_false] at hk
        rcases hk with h | h | h | h <;> subst h <;> exact ⟨_, rfl⟩)⟩

end SequentialUtils
